import Mathlib

/-!
# klarista: `cmd/create.go`

A shallow embedding of the parts of `createCmd.Run` that the specification
talks about:

* the derivation of the state bucket name and the local state directory
  (lines 22-24);
* the patching of the terraform JSON generated by kops (lines 218-286);
* one iteration of the cluster validation loop (lines 345-398);
* the sequence of external commands issued between the existence probe and
  the end of the validation loop (lines 142-398).

Go values of type `interface{}` produced by `encoding/json` are modelled by
the inductive type `JSON`; a Go `map[string]interface{}` is an association
list. A Go panic is the value `none`.
-/

namespace Klarista

/-! ## Decoded JSON values -/

/-- What `encoding/json` stores in an `interface{}`: `nil`, `bool`, `float64`,
`string`, `[]interface{}` or `map[string]interface{}`. The code never inspects
a number, so the carrier of `num` only has to contain every finite `float64`. -/
inductive JSON where
  | null : JSON
  | bool (b : Bool) : JSON
  | num (x : Rat) : JSON
  | str (s : String) : JSON
  | arr (xs : List JSON) : JSON
  | obj (kvs : List (String × JSON)) : JSON

mutual
/-- Equality of decoded values is decidable. -/
def JSON.decEq : (a b : JSON) → Decidable (a = b)
  | .null, .null => isTrue rfl
  | .bool a, .bool b =>
    if h : a = b then isTrue (by rw [h]) else isFalse (by intro e; cases e; exact h rfl)
  | .num a, .num b =>
    if h : a = b then isTrue (by rw [h]) else isFalse (by intro e; cases e; exact h rfl)
  | .str a, .str b =>
    if h : a = b then isTrue (by rw [h]) else isFalse (by intro e; cases e; exact h rfl)
  | .arr a, .arr b =>
    match JSON.decEqList a b with
    | isTrue h => isTrue (by rw [h])
    | isFalse h => isFalse (by intro e; cases e; exact h rfl)
  | .obj a, .obj b =>
    match JSON.decEqEntries a b with
    | isTrue h => isTrue (by rw [h])
    | isFalse h => isFalse (by intro e; cases e; exact h rfl)
  | .null, .bool _ | .null, .num _ | .null, .str _ | .null, .arr _ | .null, .obj _
  | .bool _, .null | .bool _, .num _ | .bool _, .str _ | .bool _, .arr _ | .bool _, .obj _
  | .num _, .null | .num _, .bool _ | .num _, .str _ | .num _, .arr _ | .num _, .obj _
  | .str _, .null | .str _, .bool _ | .str _, .num _ | .str _, .arr _ | .str _, .obj _
  | .arr _, .null | .arr _, .bool _ | .arr _, .num _ | .arr _, .str _ | .arr _, .obj _
  | .obj _, .null | .obj _, .bool _ | .obj _, .num _ | .obj _, .str _ | .obj _, .arr _ =>
    isFalse (by intro e; cases e)
/-- Equality of slices of decoded values is decidable. -/
def JSON.decEqList : (a b : List JSON) → Decidable (a = b)
  | [], [] => isTrue rfl
  | [], _ :: _ => isFalse (by intro e; cases e)
  | _ :: _, [] => isFalse (by intro e; cases e)
  | x :: xs, y :: ys =>
    match JSON.decEq x y, JSON.decEqList xs ys with
    | isTrue h1, isTrue h2 => isTrue (by rw [h1, h2])
    | isFalse h, _ => isFalse (by intro e; cases e; exact h rfl)
    | _, isFalse h => isFalse (by intro e; cases e; exact h rfl)
/-- Equality of entry lists is decidable. -/
def JSON.decEqEntries : (a b : List (String × JSON)) → Decidable (a = b)
  | [], [] => isTrue rfl
  | [], _ :: _ => isFalse (by intro e; cases e)
  | _ :: _, [] => isFalse (by intro e; cases e)
  | (k, x) :: xs, (l, y) :: ys =>
    if hk : k = l then
      match JSON.decEq x y, JSON.decEqEntries xs ys with
      | isTrue h1, isTrue h2 => isTrue (by rw [hk, h1, h2])
      | isFalse h, _ => isFalse (by intro e; cases e; exact h rfl)
      | _, isFalse h => isFalse (by intro e; cases e; exact h rfl)
    else isFalse (by intro e; cases e; exact hk rfl)
end

instance : DecidableEq JSON := JSON.decEq

/-- A Go `map[string]interface{}`: the entries in some order. A map decoded
from JSON has pairwise distinct keys; the operations below read and write the
first entry of a key, so they agree with Go on every such map. -/
abbrev JMap := List (String × JSON)

/-- The comparison `v == nil` on an `interface{}`. -/
def JSON.isNil : JSON → Bool
  | .null => true
  | _ => false

/-- The entry of a key, if there is one. -/
def find (m : JMap) (key : String) : Option JSON :=
  match m with
  | [] => none
  | (k, v) :: rest => if k = key then some v else find rest key

/-- Go's `m[key]` on a `map[string]interface{}`: the zero value `nil` when the
key is absent. -/
def index (m : JMap) (key : String) : JSON :=
  (find m key).getD JSON.null

/-- Go's `m[key] = v`: overwrite the entry of the key, or add one. -/
def assign (m : JMap) (key : String) (v : JSON) : JMap :=
  match m with
  | [] => [(key, v)]
  | (k, w) :: rest => if k = key then (k, v) :: rest else (k, w) :: assign rest key v

/-- Go's `delete(m, key)`. -/
def delete (m : JMap) (key : String) : JMap :=
  match m with
  | [] => []
  | (k, v) :: rest => if k = key then delete rest key else (k, v) :: delete rest key

/-- The keys of a map. -/
def keys (m : JMap) : List String := m.map Prod.fst

/-- The type assertion `v.(map[string]interface{})`; `none` is the panic. -/
def assertMap : JSON → Option JMap
  | .obj m => some m
  | _ => none

/-- The type assertion `v.([]interface{})`; `none` is the panic. -/
def assertSlice : JSON → Option (List JSON)
  | .arr xs => some xs
  | _ => none

/-- The type assertion `v.(string)`; `none` is the panic. -/
def assertString : JSON → Option String
  | .str s => some s
  | _ => none

/-- A `for _, v := range m` loop whose body rewrites the value `v` in place
and may panic. The iterations are independent of each other, so the order in
which Go visits the entries does not matter. -/
def rangeMap (body : JSON → Option JSON) : JMap → Option JMap
  | [] => some []
  | (k, v) :: rest =>
    match body v with
    | none => none
    | some v' =>
      match rangeMap body rest with
      | none => none
      | some rest' => some ((k, v') :: rest')

/-- A `for _, v := range xs` loop over a slice whose body rewrites the element
in place and may panic. -/
def rangeSlice (body : JSON → Option JSON) : List JSON → Option (List JSON)
  | [] => some []
  | v :: rest =>
    match body v with
    | none => none
    | some v' =>
      match rangeSlice body rest with
      | none => none
      | some rest' => some (v' :: rest')

/-! ## Patching the terraform JSON generated by kops (lines 218-286) -/

/-- Lines 248-251 and 265-268: the two assignments made to a volume. -/
def encryptVolume (terraformOutputJSON : JMap) (volume : JMap) : JMap :=
  let volume := assign volume "encrypted" (JSON.bool true)
  if (index terraformOutputJSON "encryption_key_arn").isNil then volume
  else assign volume "kms_key_id" (index terraformOutputJSON "encryption_key_arn")

/-- Lines 247-251: the body of the loop over the launch configurations. -/
def launchConfigBody (terraformOutputJSON : JMap) (lc : JSON) : Option JSON := do
  let lcMap ← assertMap lc
  let rootVolume ← assertMap (index lcMap "root_block_device")
  pure (JSON.obj (assign lcMap "root_block_device"
    (JSON.obj (encryptVolume terraformOutputJSON rootVolume))))

/-- Lines 264-268: the body of the loop over the `ebs` list. -/
def ebsBody (terraformOutputJSON : JMap) (vol : JSON) : Option JSON := do
  let volume ← assertMap vol
  pure (JSON.obj (encryptVolume terraformOutputJSON volume))

/-- Lines 262-269: the body of the loop over the block device mappings. -/
def blockDeviceBody (terraformOutputJSON : JMap) (bd : JSON) : Option JSON := do
  let bdMap ← assertMap bd
  let ebs ← assertSlice (index bdMap "ebs")
  let ebs' ← rangeSlice (ebsBody terraformOutputJSON) ebs
  pure (JSON.obj (assign bdMap "ebs" (JSON.arr ebs')))

/-- Lines 260-270: the body of the loop over the launch templates. -/
def launchTemplateBody (terraformOutputJSON : JMap) (lt : JSON) : Option JSON := do
  let ltMap ← assertMap lt
  let blockDeviceMappings ← assertSlice (index ltMap "block_device_mappings")
  let blockDeviceMappings' ← rangeSlice (blockDeviceBody terraformOutputJSON) blockDeviceMappings
  pure (JSON.obj (assign ltMap "block_device_mappings" (JSON.arr blockDeviceMappings')))

/-- Lines 279-282: the body of the loop over the route53 records. -/
def route53Body (r : JSON) : Option JSON := do
  let rMap ← assertMap r
  if (index rMap "alias").isNil then pure (JSON.obj rMap)
  else do
    let aliasMap ← assertMap (index rMap "alias")
    pure (JSON.obj (assign rMap "alias" (JSON.obj (delete aliasMap "type"))))

/-- An `if kopsResources[key] != nil { for _, v := range kopsResources[key].(map) … }`
block (lines 244-253, 257-272, 276-284). -/
def patchCollection (key : String) (body : JSON → Option JSON) (kopsResources : JMap) :
    Option JMap :=
  if (index kopsResources key).isNil then some kopsResources
  else do
    let instances ← assertMap (index kopsResources key)
    let instances' ← rangeMap body instances
    pure (assign kopsResources key (JSON.obj instances'))

/-- Lines 244-284: the three guarded edits of `kopsResources`. -/
def patchResources (terraformOutputJSON : JMap) (kopsResources : JMap) : Option JMap := do
  let kopsResources ← patchCollection "aws_launch_configuration"
    (launchConfigBody terraformOutputJSON) kopsResources
  let kopsResources ← patchCollection "aws_launch_template"
    (launchTemplateBody terraformOutputJSON) kopsResources
  patchCollection "aws_route53_record" route53Body kopsResources

/-- Lines 224-284: the edits made to the decoded `kubernetes.tf.json`, given
the map returned by `getTerraformOutputJSON()`. `none` is a panic, in which
case the file is not rewritten. -/
def patchKopsJSON (kopsJSON : JMap) (terraformOutputJSON : JMap) : Option JMap := do
  -- Remove duplicate output
  let output ← assertMap (index kopsJSON "output")
  let kopsJSON := assign kopsJSON "output" (JSON.obj (delete output "cluster_name"))
  -- Remove providers from generated kops terraform
  let kopsJSON := delete kopsJSON "provider"
  -- Remove duplicate terraform
  let kopsJSON := delete kopsJSON "terraform"
  let kopsResources ← assertMap (index kopsJSON "resource")
  let kopsResources ← patchResources terraformOutputJSON kopsResources
  pure (assign kopsJSON "resource" (JSON.obj kopsResources))

/-! ## The cluster identity (lines 22-24) -/

/-- Go's `strings.ReplaceAll(s, old, new)` for a non-empty `old`: the
occurrences of `old` are replaced from left to right, without overlap. `skip`
counts the characters of a matched `old` that are still to be dropped. -/
def replaceAllAux (old new : List Char) : Nat → List Char → List Char
  | _, [] => []
  | skip + 1, _ :: cs => replaceAllAux old new skip cs
  | 0, c :: cs =>
    if old.isPrefixOf (c :: cs) then new ++ replaceAllAux old new (old.length - 1) cs
    else c :: replaceAllAux old new 0 cs

/-- Go's `strings.ReplaceAll` for a non-empty `old`. -/
def replaceAll (s old new : String) : String :=
  String.mk (replaceAllAux old.data new.data 0 s.data)

/-- Line 24: `strings.ReplaceAll(name, ".", "-") + "-state"`. -/
def stateBucketName (name : String) : String :=
  replaceAll name "." "-" ++ "-state"

/-- Go's `strings.Split(path, "/")`, on characters. -/
def splitSlash : List Char → List (List Char)
  | [] => [[]]
  | c :: cs =>
    if c = '/' then [] :: splitSlash cs
    else
      match splitSlash cs with
      | [] => [[c]]
      | e :: es => (c :: e) :: es

/-- Go's `strings.Join(elems, "/")`, on characters. -/
def joinSlash : List (List Char) → List Char
  | [] => []
  | [e] => e
  | e :: es => e ++ '/' :: joinSlash es

/-- One step of Go's `path.Clean`: the path elements kept so far (the last one
first) after the next element `e`. Empty elements and `.` are dropped; `..`
removes the element before it, is dropped at the root, and is kept at the
start of a path that is not rooted. -/
def cleanPush (rooted : Bool) (kept : List (List Char)) (e : List Char) : List (List Char) :=
  if e = [] ∨ e = ['.'] then kept
  else if e = ['.', '.'] then
    match kept with
    | [] => if rooted then [] else [e]
    | k :: ks => if k = ['.', '.'] then e :: kept else ks
  else e :: kept

/-- A path element that `path.Clean` keeps as it is: it has no slash and is
not empty, `.` or `..`. -/
def PlainElement (e : List Char) : Prop :=
  splitSlash e = [e] ∧ e ≠ [] ∧ e ≠ ['.'] ∧ e ≠ ['.', '.']

/-- Go's `path.Clean`, by its documented rules, on characters. -/
def pathClean (path : List Char) : List Char :=
  let rooted := path.head? = some '/'
  let kept := (splitSlash path).foldl (cleanPush rooted) []
  if rooted then '/' :: joinSlash kept.reverse
  else if kept = [] then ['.']
  else joinSlash kept.reverse

/-- Go's `path.Join`: the non-empty elements joined by slashes, then cleaned;
the empty string when there is none. -/
def pathJoin (elem : List String) : String :=
  match elem.filter (fun e => e ≠ "") with
  | [] => ""
  | es => String.mk (pathClean (joinSlash (es.map String.data)))

/-- Line 23: `path.Join(os.TempDir(), name)`, with the value of `os.TempDir()`
as a parameter. -/
def localStateDir (tempDir name : String) : String :=
  pathJoin [tempDir, name]

/-! ## One iteration of the validation loop (lines 369-397) -/

/-- Go's `strings.HasPrefix`. -/
def HasPrefix (s pre : String) : Bool :=
  pre.data.isPrefixOf s.data

/-- How an iteration of a polling loop ends: with `break`, or with a sleep
after which the loop body runs again. -/
inductive PollStep where
  | exit : PollStep
  | retry (sleepSeconds : Nat) : PollStep
deriving DecidableEq

/-- Line 370: `json.Unmarshal(validateBytes, &validateJSON)` into a nil
`map[string]interface{}`, with the error dropped. The bytes are given by what
`encoding/json` reads in them: `none` when they are not a JSON text, the
decoded value otherwise. The map is set only when the text is a JSON object;
`none` is the nil map. -/
def unmarshalMap : Option JSON → Option JMap
  | some (.obj m) => some m
  | _ => none

/-- Lines 382-389: the loop that counts the expected failures; `none` is the
panic of a type assertion. -/
def countExpectedFailures : List JSON → Nat → Option Nat
  | [], expectedFailureCount => some expectedFailureCount
  | f :: rest, expectedFailureCount => do
    let failure ← assertMap f
    let name ← assertString (index failure "name")
    countExpectedFailures rest
      (if HasPrefix name "kube-system/aws-iam-authenticator" then expectedFailureCount + 1
       else expectedFailureCount)

/-- Lines 369-397: what one iteration of the validation loop does with the
output of `kops validate cluster -o json`; `none` is a panic. -/
def validationIteration (validateBytes : Option JSON) : Option PollStep :=
  match unmarshalMap validateBytes with
  | none => some (PollStep.retry 30)
  | some validateJSON =>
    if (index validateJSON "failures").isNil then some PollStep.exit
    else do
      let failures ← assertSlice (index validateJSON "failures")
      let expectedFailureCount ← countExpectedFailures failures 0
      if failures.length = expectedFailureCount then pure PollStep.exit
      else pure (PollStep.retry 30)

/-- A failure entry is a map with a string `name`. -/
def failureShaped : JSON → Bool
  | .obj failure =>
    match index failure "name" with
    | .str _ => true
    | _ => false
  | _ => false

/-- The `failures` of a report, if present, is a list of maps with a string
`name`. -/
def reportShaped (report : JMap) : Bool :=
  match index report "failures" with
  | .null => true
  | .arr failures => failures.all failureShaped
  | _ => false

/-- A failure entry whose name starts with `kube-system/aws-iam-authenticator`. -/
def failureExpected : JSON → Bool
  | .obj failure =>
    match index failure "name" with
    | .str name => HasPrefix name "kube-system/aws-iam-authenticator"
    | _ => false
  | _ => false

/-- The report has no (or null) `failures`, or every failure is expected. -/
def reportPasses (report : JMap) : Bool :=
  match index report "failures" with
  | .null => true
  | .arr failures => failures.all failureExpected
  | _ => false

/-! ## The run from the existence probe to the end of the validation loop (lines 123-398) -/

/-- What the run does to the world outside, in the order in which it does it. -/
inductive Event where
  /-- A call `shell(command, args...)`. -/
  | shell (command : String) (args : List String) : Event
  /-- A call `time.Sleep`, in seconds. -/
  | sleep (seconds : Nat) : Event
  /-- A call `os.Setenv(key, value)`. -/
  | setenv (key value : String) : Event
  /-- A call of a function that reads or writes files and whose body is not
  in `create.go`. -/
  | call (function : String) : Event
deriving DecidableEq

/-- The values that are fixed before the existence probe. -/
structure Config where
  /-- The argument `args[0]`. -/
  name : String
  /-- The flag `--fast`. -/
  fast : Bool
  /-- The result of `isDebug()`. -/
  debug : Bool
  /-- The result of `getAutoFlags(yes)`. -/
  autoFlags : String
  /-- The result of `getVarFileFlags(inputIds)`. -/
  varFileFlags : String
  /-- The result of `os.TempDir()`. -/
  tempDir : String

/-- What the world outside answers. The events of a run are numbered from 0 in
the order in which they happen. -/
structure World where
  /-- Whether the command or function that is event number `n` succeeds. -/
  succeeds : Nat → Bool
  /-- What `kops validate` prints when it is event number `n`, as
  `encoding/json` reads it (see `unmarshalMap`). -/
  validateOutput : Nat → Option JSON
  /-- The content of `kubernetes.tf.json` as line 219 decodes it; `none` when
  `json.Unmarshal` returns an error. -/
  kopsJSON : Option JMap
  /-- The map returned by `getTerraformOutputJSON()`. -/
  terraformOutputJSON : JMap

/-- The variables of the run that the model follows. -/
structure RunState where
  /-- The events so far. -/
  trace : List Event
  /-- The variable `isNewCluster` (line 142). -/
  isNewCluster : Bool
  /-- Every write of `isNewCluster` so far, the declaration included: the
  number of events before the write, and the value written. -/
  writes : List (Nat × Bool)
  /-- Every value read from `isNewCluster` so far. -/
  reads : List Bool

/-- How a run ends: it returns, it panics, or the model stops following it
because the fuel of a loop is used up. -/
inductive Outcome (α : Type) where
  | done (a : α) : Outcome α
  | panicked : Outcome α
  | outOfFuel : Outcome α

/-- A piece of the run: from a state to an outcome and the state reached. -/
def Run (α : Type) : Type := RunState → Outcome α × RunState

/-- Sequencing: the second piece runs when the first one returns. -/
def Run.bind {α β : Type} (m : Run α) (f : α → Run β) : Run β :=
  fun s =>
    match m s with
    | (Outcome.done a, s') => f a s'
    | (Outcome.panicked, s') => (Outcome.panicked, s')
    | (Outcome.outOfFuel, s') => (Outcome.outOfFuel, s')

instance : Monad Run where
  pure a := fun s => (Outcome.done a, s)
  bind := Run.bind

/-- Add an event to the trace. -/
def emit (e : Event) : Run Unit :=
  fun s => (Outcome.done (), { s with trace := s.trace ++ [e] })

/-- A Go `panic`. -/
def goPanic {α : Type} : Run α :=
  fun s => (Outcome.panicked, s)

/-- A value whose absence is a panic. -/
def orPanic {α : Type} : Option α → Run α
  | some a => pure a
  | none => goPanic

/-- Modelled from the spec: `shell` (its body is not in `create.go`) runs the
command, captures its output, and a non-zero exit is a failure unless it is
explicitly ignored. This is `shell` without an error handler: a failure is
fatal. -/
def shell (w : World) (command : String) (args : List String) : Run Unit :=
  fun s =>
    (if w.succeeds s.trace.length then Outcome.done () else Outcome.panicked,
     { s with trace := s.trace ++ [Event.shell command args] })

/-- Modelled from the spec: `shell` with an error handler as its last
argument. A failure is not fatal; the result says whether the handler ran. -/
def shellHandled (w : World) (command : String) (args : List String) : Run Bool :=
  fun s =>
    (Outcome.done (!w.succeeds s.trace.length),
     { s with trace := s.trace ++ [Event.shell command args] })

/-- A call of a function of the repository that works on files and panics,
or returns an error that the caller turns into a panic, when it fails. -/
def call (w : World) (function : String) : Run Unit :=
  fun s =>
    (if w.succeeds s.trace.length then Outcome.done () else Outcome.panicked,
     { s with trace := s.trace ++ [Event.call function] })

/-- A write of the variable `isNewCluster`: the declaration `var isNewCluster
bool`, which sets it to false, or the assignment `isNewCluster = true`. -/
def setIsNewCluster (b : Bool) : Run Unit :=
  fun s => (Outcome.done (),
    { s with isNewCluster := b, writes := s.writes ++ [(s.trace.length, b)] })

/-- A read of the variable `isNewCluster`. -/
def getIsNewCluster : Run Bool :=
  fun s => (Outcome.done s.isNewCluster, { s with reads := s.reads ++ [s.isNewCluster] })

/-- Line 123. -/
def adminKubeconfigPath (c : Config) : String :=
  pathJoin [localStateDir c.tempDir c.name, ".kubeconfig.admin.yaml"]

/-- Line 124. -/
def kubeconfigPath (c : Config) : String :=
  pathJoin [localStateDir c.tempDir c.name, "kubeconfig.yaml"]

/-- Lines 127-140: the closure `exportAdminKubeconfig`. -/
def exportAdminKubeconfig (c : Config) (w : World) : Run Unit := do
  shell w "kops" ["export", "kubeconfig", c.name, "--admin", "--kubeconfig",
    adminKubeconfigPath c]
  emit (Event.setenv "KUBECONFIG" (adminKubeconfigPath c))

/-- Lines 157-172: the script of the forced replace, with `--force` in the
place of `%s`. -/
def replaceScript : String :=
  "\n\t\t\t\t\t\t\tkops replace \\\n\t\t\t\t\t\t\t\t" ++ "--force" ++
  " \\\n\t\t\t\t\t\t\t\t-f <(\n\t\t\t\t\t\t\t\t\tkops toolbox template \\\n\t\t\t\t\t\t\t\t\t\t--name \"$CLUSTER\" \\\n\t\t\t\t\t\t\t\t\t\t--set-string \"cluster_name=$CLUSTER\" \\\n\t\t\t\t\t\t\t\t\t\t--values output.json \\\n\t\t\t\t\t\t\t\t\t\t--template <(cat ../kops/*) \\\n\t\t\t\t\t\t\t\t\t\t--format-yaml\n\t\t\t\t\t\t\t\t)\n\t\t\t\t\t\t"

/-- Lines 183-204: the arguments of `kops update cluster`. -/
def updateArgs (c : Config) (isNewCluster : Bool) : List String :=
  ["update", "cluster", c.name,
   if isNewCluster then "" else "--create-kube-config=false",
   "--target", "terraform", "--out", ".", "--yes",
   if c.debug then "-v7" else "",
   "--allow-kops-downgrade"]

/-- Lines 301-307: the script of the last `terraform apply`. -/
def finalApplyScript (c : Config) : String :=
  "terraform apply -refresh=false " ++ c.autoFlags ++ " -compact-warnings -var \"cluster_name=" ++
    c.name ++ "\" -var \"state_bucket_name=" ++ stateBucketName c.name ++ "\" " ++ c.varFileFlags

/-- Lines 326-341: the script of the rolling update. -/
def rollingUpdateScript (c : Config) : String :=
  "kops rolling-update cluster " ++ c.name ++ " " ++ (if c.fast then "--cloudonly" else "") ++
    " " ++ (if c.debug then "-v7" else "") ++ " --yes"

/-- Lines 348-357: the arguments of `kops validate`. -/
def validateArgs (c : Config) : List String :=
  ["validate", "cluster", c.name, "-o", "json"] ++ (if c.debug then ["-v7"] else [])

/-- Lines 143-343: from the existence probe to the grace sleep or the rolling
update. -/
def beforeValidation (c : Config) (w : World) : Run Unit := do
  -- var isNewCluster bool
  setIsNewCluster false
  let probeFailed ← shellHandled w "bash" ["-c", "kops get cluster $CLUSTER &> /dev/null"]
  if probeFailed then setIsNewCluster true
  shell w "bash" ["-c", replaceScript]
  if (← getIsNewCluster) then
    emit (Event.setenv "KUBECONFIG" (kubeconfigPath c))
  else
    exportAdminKubeconfig c w
  shell w "kops" (updateArgs c (← getIsNewCluster))
  if (← getIsNewCluster) then
    exportAdminKubeconfig c w
  -- Read the generated kops terraform
  call w "ioutil.ReadFile"
  let kopsJSON ← orPanic w.kopsJSON
  -- line 225 comes before the call of getTerraformOutputJSON
  let _ ← orPanic (assertMap (index kopsJSON "output"))
  call w "getTerraformOutputJSON"
  let _ ← orPanic (patchKopsJSON kopsJSON w.terraformOutputJSON)
  call w "ioutil.WriteFile"
  -- Finish provisioning
  shell w "bash" ["-c", finalApplyScript c]
  -- Write kops terraform output
  call w "getTerraformOutputJSONBytes"
  call w "writeAssets"
  if (← getIsNewCluster) then
    emit (Event.sleep (3 * 60))
  else
    shell w "bash" ["-c", rollingUpdateScript c]

/-- Lines 346-398: the validation loop, followed for at most `fuel`
iterations. The error handler of `kops validate` only logs. -/
def validationLoop (c : Config) (w : World) : Nat → Run Unit
  | 0 => fun s => (Outcome.outOfFuel, s)
  | fuel + 1 => fun s =>
    let s' : RunState := { s with trace := s.trace ++ [Event.shell "kops" (validateArgs c)] }
    match validationIteration (w.validateOutput s.trace.length) with
    | none => (Outcome.panicked, s')
    | some PollStep.exit => (Outcome.done (), s')
    | some (PollStep.retry seconds) =>
      validationLoop c w fuel { s' with trace := s'.trace ++ [Event.sleep seconds] }

/-- The first state of the run. -/
def firstState : RunState := { trace := [], isNewCluster := false, writes := [], reads := [] }

/-- Lines 142-398 of `createCmd.Run`, from the first state. -/
def clusterRun (c : Config) (w : World) (fuel : Nat) : Outcome Unit × RunState :=
  (do beforeValidation c w; validationLoop c w fuel : Run Unit) firstState

/-- The trace of a run. -/
def runTrace (c : Config) (w : World) (fuel : Nat) : List Event :=
  (clusterRun c w fuel).2.trace

/-- The events of `beforeValidation` when nothing fails, by the value that the
existence probe gives to `isNewCluster`. -/
def plan (c : Config) (isNewCluster : Bool) : List Event :=
  if isNewCluster then
    [Event.shell "bash" ["-c", "kops get cluster $CLUSTER &> /dev/null"],
     Event.shell "bash" ["-c", replaceScript],
     Event.setenv "KUBECONFIG" (kubeconfigPath c),
     Event.shell "kops" (updateArgs c true),
     Event.shell "kops" ["export", "kubeconfig", c.name, "--admin", "--kubeconfig",
       adminKubeconfigPath c],
     Event.setenv "KUBECONFIG" (adminKubeconfigPath c),
     Event.call "ioutil.ReadFile",
     Event.call "getTerraformOutputJSON",
     Event.call "ioutil.WriteFile",
     Event.shell "bash" ["-c", finalApplyScript c],
     Event.call "getTerraformOutputJSONBytes",
     Event.call "writeAssets",
     Event.sleep 180]
  else
    [Event.shell "bash" ["-c", "kops get cluster $CLUSTER &> /dev/null"],
     Event.shell "bash" ["-c", replaceScript],
     Event.shell "kops" ["export", "kubeconfig", c.name, "--admin", "--kubeconfig",
       adminKubeconfigPath c],
     Event.setenv "KUBECONFIG" (adminKubeconfigPath c),
     Event.shell "kops" (updateArgs c false),
     Event.call "ioutil.ReadFile",
     Event.call "getTerraformOutputJSON",
     Event.call "ioutil.WriteFile",
     Event.shell "bash" ["-c", finalApplyScript c],
     Event.call "getTerraformOutputJSONBytes",
     Event.call "writeAssets",
     Event.shell "bash" ["-c", rollingUpdateScript c]]

/-- The temporary-admin credential export, `kops export kubeconfig <name> --admin …`. -/
def isAdminExport : Event → Bool
  | .shell command args =>
    command == "kops" && args.take 2 == ["export", "kubeconfig"] &&
      (args.drop 3).head? == some "--admin"
  | _ => false

/-- The forced spec replace, `bash -c` with the script of `kops replace --force`. -/
def isSpecReplace : Event → Bool
  | .shell command args => command == "bash" && args == ["-c", replaceScript]
  | _ => false

/-- A command `kops update cluster …`. -/
def isUpdateCluster : Event → Bool
  | .shell command args => command == "kops" && args.take 2 == ["update", "cluster"]
  | _ => false

/-- A command `bash -c "terraform apply -refresh=false …"`. -/
def isFinalApply : Event → Bool
  | .shell command args =>
    command == "bash" && args.take 1 == ["-c"] &&
      HasPrefix ((args.drop 1).headD "") "terraform apply -refresh=false "
  | _ => false

/-- A validation check, `kops validate …`. -/
def isValidate : Event → Bool
  | .shell command args => command == "kops" && args.take 1 == ["validate"]
  | _ => false

/-- The trace has an event with `p` and, later, an event with `q`. -/
def occursBefore (p q : Event → Bool) : List Event → Bool
  | [] => false
  | e :: rest => (p e && rest.any q) || occursBefore p q rest

/-- The events after the first `terraform apply -refresh=false` and before
the first validation check that follows it. -/
def betweenApplyAndValidation (trace : List Event) : List Event :=
  ((trace.dropWhile (fun e => !isFinalApply e)).drop 1).takeWhile (fun e => !isValidate e)

/-- A run for the cluster `c.example.com`. -/
def exampleConfig : Config :=
  { name := "c.example.com", fast := true, debug := false, autoFlags := "-auto-approve",
    varFileFlags := "", tempDir := "/tmp" }

/-! ## The properties of a patched document -/

/-- The key under which the terraform output carries the encryption key. -/
def hasKey (terraformOutputJSON : JMap) : Bool :=
  !(index terraformOutputJSON "encryption_key_arn").isNil

/-- A volume with `encrypted = true` and, when the terraform output has a
non-null `encryption_key_arn`, with `kms_key_id` equal to it. -/
def VolumeEncrypted (terraformOutputJSON : JMap) : JSON → Prop
  | .obj volume =>
    index volume "encrypted" = JSON.bool true ∧
    (hasKey terraformOutputJSON = true →
      index volume "kms_key_id" = index terraformOutputJSON "encryption_key_arn")
  | _ => False

/-- A launch configuration whose `root_block_device` is an encrypted volume. -/
def LaunchConfigEncrypted (terraformOutputJSON : JMap) : JSON → Prop
  | .obj lc => VolumeEncrypted terraformOutputJSON (index lc "root_block_device")
  | _ => False

/-- A block device mapping whose `ebs` is a list of encrypted volumes. -/
def BlockDeviceEncrypted (terraformOutputJSON : JMap) : JSON → Prop
  | .obj bd =>
    match index bd "ebs" with
    | .arr ebs => ∀ vol ∈ ebs, VolumeEncrypted terraformOutputJSON vol
    | _ => False
  | _ => False

/-- A launch template whose `block_device_mappings` is a list of mappings with
encrypted volumes only. -/
def LaunchTemplateEncrypted (terraformOutputJSON : JMap) : JSON → Prop
  | .obj lt =>
    match index lt "block_device_mappings" with
    | .arr bds => ∀ bd ∈ bds, BlockDeviceEncrypted terraformOutputJSON bd
    | _ => False
  | _ => False

/-- A route53 record with no `alias` block, or with one that has no `type` key. -/
def AliasHasNoType : JSON → Prop
  | .obj r =>
    match index r "alias" with
    | .null => True
    | .obj aliasMap => "type" ∉ keys aliasMap
    | _ => False
  | _ => False

/-- Every instance of the collection `resources[key]` satisfies `P`: the
collection is absent or null, or it is a map all of whose values satisfy `P`. -/
def EveryInstance (resources : JMap) (key : String) (P : JSON → Prop) : Prop :=
  match index resources key with
  | .null => True
  | .obj instances => ∀ kv ∈ instances, P kv.2
  | _ => False

/-! ## The shape the type assertions of the patch ask for -/

/-- Whether `v.(map[string]interface{})` succeeds. -/
def JSON.isMap : JSON → Bool
  | .obj _ => true
  | _ => false

/-- Line 247: a launch configuration is a map with a map `root_block_device`. -/
def launchConfigShaped : JSON → Bool
  | .obj lc => (index lc "root_block_device").isMap
  | _ => false

/-- Lines 262-264: a block device mapping is a map with a slice `ebs` of maps. -/
def blockDeviceShaped : JSON → Bool
  | .obj bd =>
    match index bd "ebs" with
    | .arr ebs => ebs.all JSON.isMap
    | _ => false
  | _ => false

/-- Line 260: a launch template is a map with a slice `block_device_mappings`
of block device mappings. -/
def launchTemplateShaped : JSON → Bool
  | .obj lt =>
    match index lt "block_device_mappings" with
    | .arr bds => bds.all blockDeviceShaped
    | _ => false
  | _ => false

/-- Lines 279-280: a route53 record is a map whose `alias` is absent, null or a map. -/
def route53Shaped : JSON → Bool
  | .obj r => (index r "alias").isNil || (index r "alias").isMap
  | _ => false

/-- The collection `resources[key]` is absent or null, or a map of instances
that all have the shape `shaped`. -/
def collectionShaped (shaped : JSON → Bool) (resources : JMap) (key : String) : Bool :=
  (index resources key).isNil ||
    match index resources key with
    | .obj instances => instances.all (fun kv => shaped kv.2)
    | _ => false

/-- The document has a map `output` and a map `resource`, and each of the three
collections under `resource` is absent, null or of the shape its loop asserts. -/
def documentShaped (kopsJSON : JMap) : Bool :=
  (index kopsJSON "output").isMap &&
    match index kopsJSON "resource" with
    | .obj resources =>
      collectionShaped launchConfigShaped resources "aws_launch_configuration" &&
      collectionShaped launchTemplateShaped resources "aws_launch_template" &&
      collectionShaped route53Shaped resources "aws_route53_record"
    | _ => false

/-- The edit of `resources[key]` was skipped: the collection is absent or null
in `resources`, and its entry is the same in `resources'`. -/
def EditSkipped (resources resources' : JMap) (key : String) : Prop :=
  (index resources key).isNil = true ∧ find resources' key = find resources key

/-- The edit of `resources[key]` was applied: the collection is a map in
`resources`, and in `resources'` it is that map after the loop with `body`. -/
def EditApplied (body : JSON → Option JSON) (resources resources' : JMap) (key : String) :
    Prop :=
  ∃ instances instances', index resources key = JSON.obj instances ∧
    rangeMap body instances = some instances' ∧
    index resources' key = JSON.obj instances'

/-- A document with a map `output` and a map `resource` and none of the three
collections. -/
def exampleBare : JMap :=
  [("output", JSON.obj [("region", JSON.obj [("value", JSON.str "us-east-1")])]),
   ("resource", JSON.obj [("aws_vpc", JSON.obj [("main", JSON.obj [])])])]

/-! ## Erasing the fields the patch may touch -/

/-- Rewrite every value of a map, by key. -/
def mapEntries (g : String → JSON → JSON) (m : JMap) : JMap :=
  m.map (fun kv => (kv.1, g kv.1 kv.2))

/-- Rewrite a map value, and leave any other value as it is. -/
def onObj (g : JMap → JMap) : JSON → JSON
  | .obj m => .obj (g m)
  | v => v

/-- Rewrite the elements of a slice value, and leave any other value as it is. -/
def onArr (g : JSON → JSON) : JSON → JSON
  | .arr xs => .arr (xs.map g)
  | v => v

/-- Rewrite the value under one key. -/
def atKey (key : String) (f : JSON → JSON) : String → JSON → JSON :=
  fun k v => if k = key then f v else v

/-- Drop `encrypted` from a volume, and `kms_key_id` too when `withKey` is set. -/
def eraseVolume (withKey : Bool) : JSON → JSON :=
  onObj (fun volume =>
    if withKey then delete (delete volume "encrypted") "kms_key_id"
    else delete volume "encrypted")

/-- Erase the volume fields of a launch configuration. -/
def eraseLaunchConfig (withKey : Bool) : JSON → JSON :=
  onObj (mapEntries (atKey "root_block_device" (eraseVolume withKey)))

/-- Erase the volume fields of a block device mapping. -/
def eraseBlockDevice (withKey : Bool) : JSON → JSON :=
  onObj (mapEntries (atKey "ebs" (onArr (eraseVolume withKey))))

/-- Erase the volume fields of a launch template. -/
def eraseLaunchTemplate (withKey : Bool) : JSON → JSON :=
  onObj (mapEntries (atKey "block_device_mappings" (onArr (eraseBlockDevice withKey))))

/-- Drop `alias.type` from a route53 record. -/
def eraseRoute53 : JSON → JSON :=
  onObj (mapEntries (atKey "alias" (onObj (fun aliasMap => delete aliasMap "type"))))

/-- Apply `f` to every instance of a collection. -/
def eachInstance (f : JSON → JSON) : JSON → JSON :=
  onObj (mapEntries (fun _ v => f v))

/-- Erase, by collection, the fields the patch may touch under `resource`. -/
def eraseCollection (withKey : Bool) : String → JSON → JSON :=
  fun k v =>
    if k = "aws_launch_configuration" then eachInstance (eraseLaunchConfig withKey) v
    else if k = "aws_launch_template" then eachInstance (eraseLaunchTemplate withKey) v
    else if k = "aws_route53_record" then eachInstance eraseRoute53 v
    else v

/-- Erase, by top-level key, the fields the patch may touch. -/
def eraseTop (withKey : Bool) : String → JSON → JSON :=
  fun k v =>
    if k = "output" then onObj (fun output => delete output "cluster_name") v
    else if k = "resource" then onObj (mapEntries (eraseCollection withKey)) v
    else v

/-- The document without `output.cluster_name`, top-level `provider` and
`terraform`, `encrypted` (and, when `withKey` is set, `kms_key_id`) of the
launch-configuration root volumes and of the launch-template `ebs` volumes,
and `alias.type` of the route53 records. Two documents with the same erasure
differ in these fields at most. -/
def erase (withKey : Bool) (kopsJSON : JMap) : JMap :=
  mapEntries (eraseTop withKey) (delete (delete kopsJSON "provider") "terraform")

/-! ## Example documents -/

/-- A terraform output with an encryption key. -/
def exampleOutput : JMap := [("encryption_key_arn", JSON.str "arn:aws:kms:key/1")]

/-- A generated document with one resource of each of the three patched kinds. -/
def exampleKopsJSON : JMap :=
  [("output", JSON.obj [("cluster_name", JSON.obj [("value", JSON.str "c.example.com")]),
                        ("region", JSON.obj [("value", JSON.str "us-east-1")])]),
   ("provider", JSON.obj [("aws", JSON.obj [("region", JSON.str "us-east-1")])]),
   ("resource", JSON.obj
     [("aws_launch_configuration", JSON.obj
        [("nodes", JSON.obj [("root_block_device", JSON.obj
            [("volume_size", JSON.num 128), ("kms_key_id", JSON.str "old")])])]),
      ("aws_launch_template", JSON.obj
        [("master", JSON.obj [("block_device_mappings", JSON.arr
            [JSON.obj [("device_name", JSON.str "/dev/xvda"),
                       ("ebs", JSON.arr [JSON.obj [("volume_size", JSON.num 64)]])]])])]),
      ("aws_route53_record", JSON.obj
        [("api", JSON.obj [("alias", JSON.obj
            [("name", JSON.str "lb"), ("type", JSON.str "A")])])])]),
   ("terraform", JSON.obj [("required_version", JSON.str ">= 0.12.26")])]

/-- The document `exampleKopsJSON` after the patch with `exampleOutput`. -/
def examplePatched : JMap :=
  [("output", JSON.obj [("region", JSON.obj [("value", JSON.str "us-east-1")])]),
   ("resource", JSON.obj
     [("aws_launch_configuration", JSON.obj
        [("nodes", JSON.obj [("root_block_device", JSON.obj
            [("volume_size", JSON.num 128), ("kms_key_id", JSON.str "arn:aws:kms:key/1"),
             ("encrypted", JSON.bool true)])])]),
      ("aws_launch_template", JSON.obj
        [("master", JSON.obj [("block_device_mappings", JSON.arr
            [JSON.obj [("device_name", JSON.str "/dev/xvda"),
                       ("ebs", JSON.arr [JSON.obj [("volume_size", JSON.num 64),
                          ("encrypted", JSON.bool true),
                          ("kms_key_id", JSON.str "arn:aws:kms:key/1")]])]])])]),
      ("aws_route53_record", JSON.obj
        [("api", JSON.obj [("alias", JSON.obj [("name", JSON.str "lb")])])])])]

/-- The document `exampleKopsJSON` after the patch with an empty terraform
output: the `kms_key_id` that was there stays, and none is added. -/
def examplePatchedNoKey : JMap :=
  [("output", JSON.obj [("region", JSON.obj [("value", JSON.str "us-east-1")])]),
   ("resource", JSON.obj
     [("aws_launch_configuration", JSON.obj
        [("nodes", JSON.obj [("root_block_device", JSON.obj
            [("volume_size", JSON.num 128), ("kms_key_id", JSON.str "old"),
             ("encrypted", JSON.bool true)])])]),
      ("aws_launch_template", JSON.obj
        [("master", JSON.obj [("block_device_mappings", JSON.arr
            [JSON.obj [("device_name", JSON.str "/dev/xvda"),
                       ("ebs", JSON.arr [JSON.obj [("volume_size", JSON.num 64),
                          ("encrypted", JSON.bool true)]])]])])]),
      ("aws_route53_record", JSON.obj
        [("api", JSON.obj [("alias", JSON.obj [("name", JSON.str "lb")])])])])]

/-- A world in which every command succeeds, so that the cluster exists, and
the first validation report has no failures. -/
def existingWorld : World :=
  { succeeds := fun _ => true, validateOutput := fun _ => some (JSON.obj []),
    kopsJSON := some exampleKopsJSON, terraformOutputJSON := exampleOutput }

/-- A world in which the existence probe fails and every other command
succeeds, and the first validation report has no failures. -/
def newWorld : World :=
  { succeeds := fun n => decide (n ≠ 0), validateOutput := fun _ => some (JSON.obj []),
    kopsJSON := some exampleKopsJSON, terraformOutputJSON := exampleOutput }

/-! ## Lemmas about maps -/

theorem find_assign_same (m : JMap) (k : String) (v : JSON) :
    find (assign m k v) k = some v := by
  induction m with
  | nil => simp [assign, find]
  | cons p rest ih =>
    obtain ⟨a, b⟩ := p
    by_cases h : a = k <;> simp [assign, find, h, ih]

theorem find_assign_ne (m : JMap) (k k' : String) (v : JSON) (h : k' ≠ k) :
    find (assign m k v) k' = find m k' := by
  induction m with
  | nil => simp [assign, find, Ne.symm h]
  | cons p rest ih =>
    obtain ⟨a, b⟩ := p
    by_cases ha : a = k
    · subst ha
      simp [assign, find, Ne.symm h]
    · by_cases hb : a = k'
      · subst hb
        simp [assign, find, ha]
      · simp [assign, find, ha, hb, ih]

theorem index_assign_same (m : JMap) (k : String) (v : JSON) :
    index (assign m k v) k = v := by
  simp [index, find_assign_same]

theorem index_assign_ne (m : JMap) (k k' : String) (v : JSON) (h : k' ≠ k) :
    index (assign m k v) k' = index m k' := by
  simp [index, find_assign_ne m k k' v h]

theorem assign_of_find (m : JMap) (k : String) (v : JSON) (h : find m k = some v) :
    assign m k v = m := by
  induction m with
  | nil => simp [find] at h
  | cons p rest ih =>
    obtain ⟨a, b⟩ := p
    by_cases ha : a = k
    · simp [find, ha] at h
      simp [assign, ha, h]
    · simp [find, ha] at h
      simp [assign, ha, ih h]

theorem find_of_index (m : JMap) (k : String) (v : JSON) (h : index m k = v)
    (hv : v.isNil = false) : find m k = some v := by
  unfold index at h
  cases hf : find m k with
  | none => rw [hf] at h; simp at h; subst h; simp [JSON.isNil] at hv
  | some w => rw [hf] at h; simp at h; rw [h]

theorem assign_of_index (m : JMap) (k : String) (v : JSON) (h : index m k = v)
    (hv : v.isNil = false) : assign m k v = m :=
  assign_of_find m k v (find_of_index m k v h hv)

theorem assign_assign (m : JMap) (k : String) (a b : JSON) :
    assign (assign m k a) k b = assign m k b := by
  induction m with
  | nil => simp [assign]
  | cons p rest ih =>
    obtain ⟨x, y⟩ := p
    by_cases hx : x = k <;> simp [assign, hx, ih]

theorem find_delete_same (m : JMap) (k : String) : find (delete m k) k = none := by
  induction m with
  | nil => simp [delete, find]
  | cons p rest ih =>
    obtain ⟨a, b⟩ := p
    by_cases ha : a = k <;> simp [delete, ha, find, ih]

theorem find_delete_ne (m : JMap) (k k' : String) (h : k' ≠ k) :
    find (delete m k) k' = find m k' := by
  induction m with
  | nil => simp [delete, find]
  | cons p rest ih =>
    obtain ⟨a, b⟩ := p
    by_cases ha : a = k
    · subst ha
      simp [delete, find, Ne.symm h, ih]
    · by_cases hb : a = k'
      · subst hb
        simp [delete, ha, find]
      · simp [delete, ha, find, hb, ih]

theorem index_delete_ne (m : JMap) (k k' : String) (h : k' ≠ k) :
    index (delete m k) k' = index m k' := by
  simp [index, find_delete_ne m k k' h]

theorem mem_keys_assign (m : JMap) (k k' : String) (v : JSON) :
    k' ∈ keys (assign m k v) ↔ k' = k ∨ k' ∈ keys m := by
  induction m with
  | nil => simp [assign, keys]
  | cons p rest ih =>
    obtain ⟨a, b⟩ := p
    by_cases ha : a = k
    · subst ha
      simp [assign, keys]
    · simp only [keys] at ih
      simp only [assign, ha, keys, if_false, List.map_cons, List.mem_cons, ih]
      tauto

theorem mem_keys_delete (m : JMap) (k k' : String) :
    k' ∈ keys (delete m k) ↔ k' ≠ k ∧ k' ∈ keys m := by
  induction m with
  | nil => simp [delete, keys]
  | cons p rest ih =>
    obtain ⟨a, b⟩ := p
    simp only [keys] at ih
    by_cases ha : a = k
    · subst ha
      simp only [delete, keys, if_true, List.map_cons, List.mem_cons, ih]
      constructor
      · rintro ⟨h1, h2⟩
        exact ⟨h1, Or.inr h2⟩
      · rintro ⟨h1, h2 | h2⟩
        · exact absurd h2 h1
        · exact ⟨h1, h2⟩
    · simp only [delete, ha, keys, if_false, List.map_cons, List.mem_cons, ih]
      constructor
      · rintro (h1 | ⟨h1, h2⟩)
        · exact ⟨by rw [h1]; exact ha, Or.inl h1⟩
        · exact ⟨h1, Or.inr h2⟩
      · rintro ⟨h1, h2 | h2⟩
        · exact Or.inl h2
        · exact Or.inr ⟨h1, h2⟩

theorem not_mem_keys_delete (m : JMap) (k : String) : k ∉ keys (delete m k) := by
  simp [mem_keys_delete]

theorem delete_of_not_mem (m : JMap) (k : String) (h : k ∉ keys m) : delete m k = m := by
  induction m with
  | nil => simp [delete]
  | cons p rest ih =>
    obtain ⟨a, b⟩ := p
    simp only [keys, List.map_cons, List.mem_cons, not_or] at h
    have ha : ¬ a = k := fun e => h.1 e.symm
    simp only [delete, ha, if_false]
    rw [ih h.2]

theorem delete_delete (m : JMap) (k : String) : delete (delete m k) k = delete m k :=
  delete_of_not_mem _ _ (not_mem_keys_delete m k)

theorem delete_comm (m : JMap) (k k' : String) :
    delete (delete m k) k' = delete (delete m k') k := by
  induction m with
  | nil => simp [delete]
  | cons p rest ih =>
    obtain ⟨a, b⟩ := p
    by_cases ha : a = k
    · subst ha
      by_cases hb : a = k'
      · subst hb
        simp [delete]
      · simp [delete, hb, ih]
    · by_cases hb : a = k'
      · subst hb
        simp [delete, ha, ih]
      · simp [delete, ha, hb, ih]

theorem delete_assign_same (m : JMap) (k : String) (v : JSON) :
    delete (assign m k v) k = delete m k := by
  induction m with
  | nil => simp [assign, delete]
  | cons p rest ih =>
    obtain ⟨a, b⟩ := p
    by_cases ha : a = k <;> simp [assign, delete, ha, ih]

theorem delete_assign_ne (m : JMap) (k k' : String) (v : JSON) (h : k ≠ k') :
    delete (assign m k v) k' = assign (delete m k') k v := by
  induction m with
  | nil => simp [assign, delete, h]
  | cons p rest ih =>
    obtain ⟨a, b⟩ := p
    by_cases ha : a = k
    · subst ha
      simp [assign, delete, h]
    · by_cases hb : a = k'
      · subst hb
        simp [assign, delete, ha, ih]
      · simp [assign, delete, ha, hb, ih]

/-! ## Lemmas about the loops and the loop bodies -/

theorem rangeMap_forall (body : JSON → Option JSON) (P : JSON → Prop)
    (hbody : ∀ x y, body x = some y → P y) :
    ∀ (m m' : JMap), rangeMap body m = some m' → ∀ kv ∈ m', P kv.2 := by
  intro m
  induction m with
  | nil =>
    intro m' h kv hkv
    simp [rangeMap] at h
    subst h
    simp at hkv
  | cons p rest ih =>
    obtain ⟨k, v⟩ := p
    intro m' h kv hkv
    simp only [rangeMap] at h
    cases hb : body v with
    | none => simp [hb] at h
    | some v' =>
      cases hr : rangeMap body rest with
      | none => simp [hb, hr] at h
      | some rest' =>
        simp [hb, hr] at h
        subst h
        rcases List.mem_cons.1 hkv with e | e
        · subst e
          exact hbody v v' hb
        · exact ih rest' hr kv e

theorem rangeSlice_forall (body : JSON → Option JSON) (P : JSON → Prop)
    (hbody : ∀ x y, body x = some y → P y) :
    ∀ (xs ys : List JSON), rangeSlice body xs = some ys → ∀ y ∈ ys, P y := by
  intro xs
  induction xs with
  | nil =>
    intro ys h y hy
    simp [rangeSlice] at h
    subst h
    simp at hy
  | cons v rest ih =>
    intro ys h y hy
    simp only [rangeSlice] at h
    cases hb : body v with
    | none => simp [hb] at h
    | some v' =>
      cases hr : rangeSlice body rest with
      | none => simp [hb, hr] at h
      | some rest' =>
        simp [hb, hr] at h
        subst h
        rcases List.mem_cons.1 hy with e | e
        · rw [e]
          exact hbody v v' hb
        · exact ih rest' hr y e

theorem assertMap_some {v : JSON} {m : JMap} (h : assertMap v = some m) : v = JSON.obj m := by
  cases v <;> simp [assertMap] at h
  rw [h]

theorem assertSlice_some {v : JSON} {xs : List JSON} (h : assertSlice v = some xs) :
    v = JSON.arr xs := by
  cases v <;> simp [assertSlice] at h
  rw [h]

/-- What a successful iteration over a launch configuration computes. -/
theorem launchConfigBody_some {o : JMap} {lc lc' : JSON} (h : launchConfigBody o lc = some lc') :
    ∃ lcMap rootVolume, lc = JSON.obj lcMap ∧
      index lcMap "root_block_device" = JSON.obj rootVolume ∧
      lc' = JSON.obj (assign lcMap "root_block_device" (JSON.obj (encryptVolume o rootVolume))) := by
  simp only [launchConfigBody, bind, Option.bind] at h
  cases h1 : assertMap lc with
  | none => simp [h1] at h
  | some lcMap =>
    simp only [h1] at h
    cases h2 : assertMap (index lcMap "root_block_device") with
    | none => simp [h2] at h
    | some rootVolume =>
      simp [h2, pure] at h
      exact ⟨lcMap, rootVolume, assertMap_some h1, assertMap_some h2, h.symm⟩

/-- What a successful iteration over an `ebs` element computes. -/
theorem ebsBody_some {o : JMap} {vol vol' : JSON} (h : ebsBody o vol = some vol') :
    ∃ volume, vol = JSON.obj volume ∧ vol' = JSON.obj (encryptVolume o volume) := by
  simp only [ebsBody, bind, Option.bind] at h
  cases h1 : assertMap vol with
  | none => simp [h1] at h
  | some volume =>
    simp [h1, pure] at h
    exact ⟨volume, assertMap_some h1, h.symm⟩

/-- What a successful iteration over a block device mapping computes. -/
theorem blockDeviceBody_some {o : JMap} {bd bd' : JSON} (h : blockDeviceBody o bd = some bd') :
    ∃ bdMap ebs ebs', bd = JSON.obj bdMap ∧ index bdMap "ebs" = JSON.arr ebs ∧
      rangeSlice (ebsBody o) ebs = some ebs' ∧
      bd' = JSON.obj (assign bdMap "ebs" (JSON.arr ebs')) := by
  simp only [blockDeviceBody, bind, Option.bind] at h
  cases h1 : assertMap bd with
  | none => simp [h1] at h
  | some bdMap =>
    simp only [h1] at h
    cases h2 : assertSlice (index bdMap "ebs") with
    | none => simp [h2] at h
    | some ebs =>
      simp only [h2] at h
      cases h3 : rangeSlice (ebsBody o) ebs with
      | none => simp [h3] at h
      | some ebs' =>
        simp [h3, pure] at h
        exact ⟨bdMap, ebs, ebs', assertMap_some h1, assertSlice_some h2, h3, h.symm⟩

/-- What a successful iteration over a launch template computes. -/
theorem launchTemplateBody_some {o : JMap} {lt lt' : JSON}
    (h : launchTemplateBody o lt = some lt') :
    ∃ ltMap bds bds', lt = JSON.obj ltMap ∧ index ltMap "block_device_mappings" = JSON.arr bds ∧
      rangeSlice (blockDeviceBody o) bds = some bds' ∧
      lt' = JSON.obj (assign ltMap "block_device_mappings" (JSON.arr bds')) := by
  simp only [launchTemplateBody, bind, Option.bind] at h
  cases h1 : assertMap lt with
  | none => simp [h1] at h
  | some ltMap =>
    simp only [h1] at h
    cases h2 : assertSlice (index ltMap "block_device_mappings") with
    | none => simp [h2] at h
    | some bds =>
      simp only [h2] at h
      cases h3 : rangeSlice (blockDeviceBody o) bds with
      | none => simp [h3] at h
      | some bds' =>
        simp [h3, pure] at h
        exact ⟨ltMap, bds, bds', assertMap_some h1, assertSlice_some h2, h3, h.symm⟩

/-- What a successful iteration over a route53 record computes. -/
theorem route53Body_some {r r' : JSON} (h : route53Body r = some r') :
    ∃ rMap, r = JSON.obj rMap ∧
      (((index rMap "alias").isNil = true ∧ r' = r) ∨
       (∃ aliasMap, index rMap "alias" = JSON.obj aliasMap ∧
          r' = JSON.obj (assign rMap "alias" (JSON.obj (delete aliasMap "type"))))) := by
  simp only [route53Body, bind, Option.bind] at h
  cases h1 : assertMap r with
  | none => simp [h1] at h
  | some rMap =>
    simp only [h1] at h
    have hr := assertMap_some h1
    by_cases hn : (index rMap "alias").isNil = true
    · simp [hn, pure] at h
      exact ⟨rMap, hr, Or.inl ⟨hn, by rw [← h, hr]⟩⟩
    · simp only [hn] at h
      cases h2 : assertMap (index rMap "alias") with
      | none => simp [h2] at h
      | some aliasMap =>
        simp [h2, pure] at h
        exact ⟨rMap, hr, Or.inr ⟨aliasMap, assertMap_some h2, h.symm⟩⟩

/-- What a guarded edit of a collection computes. -/
theorem patchCollection_some {key : String} {body : JSON → Option JSON} {r r' : JMap}
    (h : patchCollection key body r = some r') :
    ((index r key).isNil = true ∧ r' = r) ∨
    (∃ instances instances', index r key = JSON.obj instances ∧
      rangeMap body instances = some instances' ∧
      r' = assign r key (JSON.obj instances')) := by
  unfold patchCollection at h
  by_cases hn : (index r key).isNil = true
  · simp [hn] at h
    exact Or.inl ⟨hn, h.symm⟩
  · simp only [hn, bind, Option.bind] at h
    cases h1 : assertMap (index r key) with
    | none => simp [h1] at h
    | some instances =>
      simp only [h1] at h
      cases h2 : rangeMap body instances with
      | none => simp [h2] at h
      | some instances' =>
        simp [h2, pure] at h
        exact Or.inr ⟨instances, instances', assertMap_some h1, h2, h.symm⟩

/-- A guarded edit leaves the other collections alone. -/
theorem patchCollection_index_ne {key key' : String} {body : JSON → Option JSON} {r r' : JMap}
    (h : patchCollection key body r = some r') (hne : key' ≠ key) :
    index r' key' = index r key' := by
  rcases patchCollection_some h with ⟨_, e⟩ | ⟨_, instances', _, _, e⟩
  · rw [e]
  · rw [e, index_assign_ne _ _ _ _ hne]

/-- What the three guarded edits compute. -/
theorem patchResources_some {o : JMap} {r r' : JMap} (h : patchResources o r = some r') :
    ∃ r1 r2, patchCollection "aws_launch_configuration" (launchConfigBody o) r = some r1 ∧
      patchCollection "aws_launch_template" (launchTemplateBody o) r1 = some r2 ∧
      patchCollection "aws_route53_record" route53Body r2 = some r' := by
  simp only [patchResources, bind, Option.bind] at h
  cases h1 : patchCollection "aws_launch_configuration" (launchConfigBody o) r with
  | none => simp [h1] at h
  | some r1 =>
    simp only [h1] at h
    cases h2 : patchCollection "aws_launch_template" (launchTemplateBody o) r1 with
    | none => simp [h2] at h
    | some r2 =>
      simp only [h2] at h
      exact ⟨r1, r2, rfl, h2, h⟩

/-- What the whole patch computes. -/
theorem patchKopsJSON_some {d o d' : JMap} (h : patchKopsJSON d o = some d') :
    ∃ output r r', index d "output" = JSON.obj output ∧
      index d "resource" = JSON.obj r ∧
      patchResources o r = some r' ∧
      d' = assign (delete (delete (assign d "output" (JSON.obj (delete output "cluster_name")))
        "provider") "terraform") "resource" (JSON.obj r') := by
  simp only [patchKopsJSON, bind, Option.bind] at h
  cases h1 : assertMap (index d "output") with
  | none => simp [h1] at h
  | some output =>
    simp only [h1] at h
    cases h2 : assertMap (index (delete (delete (assign d "output"
        (JSON.obj (delete output "cluster_name"))) "provider") "terraform") "resource") with
    | none => simp [h2] at h
    | some r =>
      simp only [h2] at h
      cases h3 : patchResources o r with
      | none => simp [h3] at h
      | some r' =>
        simp [h3, pure] at h
        refine ⟨output, r, r', assertMap_some h1, ?_, h3, h.symm⟩
        have := assertMap_some h2
        rw [index_delete_ne _ _ _ (by decide), index_delete_ne _ _ _ (by decide),
          index_assign_ne _ _ _ _ (by decide)] at this
        exact this

theorem index_eq_null_of_isNil {m : JMap} {k : String} (h : (index m k).isNil = true) :
    index m k = JSON.null := by
  cases hv : index m k <;> simp [hv, JSON.isNil] at h
  rfl

theorem patchCollection_everyInstance {key : String} {body : JSON → Option JSON} {r r' : JMap}
    (P : JSON → Prop) (hbody : ∀ x y, body x = some y → P y)
    (h : patchCollection key body r = some r') : EveryInstance r' key P := by
  rcases patchCollection_some h with ⟨hn, e⟩ | ⟨instances, instances', _, hr, e⟩
  · subst e
    simp [EveryInstance, index_eq_null_of_isNil hn]
  · subst e
    simp only [EveryInstance, index_assign_same]
    exact rangeMap_forall body P hbody instances instances' hr

theorem everyInstance_congr {r r' : JMap} {key : String} (P : JSON → Prop)
    (h : index r' key = index r key) (hr : EveryInstance r key P) : EveryInstance r' key P := by
  unfold EveryInstance at hr ⊢
  rw [h]
  exact hr

theorem encryptVolume_encrypted (o volume : JMap) :
    VolumeEncrypted o (JSON.obj (encryptVolume o volume)) := by
  unfold VolumeEncrypted encryptVolume hasKey
  by_cases hn : (index o "encryption_key_arn").isNil = true
  · simp [hn, index_assign_same]
  · simp only [hn]
    refine ⟨?_, fun _ => ?_⟩
    · simp only [Bool.false_eq_true, if_false]
      rw [index_assign_ne _ _ _ _ (by decide), index_assign_same]
    · simp only [Bool.false_eq_true, if_false]
      rw [index_assign_same]

theorem launchConfigBody_encrypted {o : JMap} {lc lc' : JSON}
    (h : launchConfigBody o lc = some lc') : LaunchConfigEncrypted o lc' := by
  obtain ⟨lcMap, rootVolume, _, _, e⟩ := launchConfigBody_some h
  subst e
  simp only [LaunchConfigEncrypted, index_assign_same]
  exact encryptVolume_encrypted o rootVolume

theorem ebsBody_encrypted {o : JMap} {vol vol' : JSON}
    (h : ebsBody o vol = some vol') : VolumeEncrypted o vol' := by
  obtain ⟨volume, _, e⟩ := ebsBody_some h
  subst e
  exact encryptVolume_encrypted o volume

theorem blockDeviceBody_encrypted {o : JMap} {bd bd' : JSON}
    (h : blockDeviceBody o bd = some bd') : BlockDeviceEncrypted o bd' := by
  obtain ⟨bdMap, ebs, ebs', _, _, hr, e⟩ := blockDeviceBody_some h
  subst e
  simp only [BlockDeviceEncrypted, index_assign_same]
  exact rangeSlice_forall _ _ (fun _ _ hb => ebsBody_encrypted hb) ebs ebs' hr

theorem launchTemplateBody_encrypted {o : JMap} {lt lt' : JSON}
    (h : launchTemplateBody o lt = some lt') : LaunchTemplateEncrypted o lt' := by
  obtain ⟨ltMap, bds, bds', _, _, hr, e⟩ := launchTemplateBody_some h
  subst e
  simp only [LaunchTemplateEncrypted, index_assign_same]
  exact rangeSlice_forall _ _ (fun _ _ hb => blockDeviceBody_encrypted hb) bds bds' hr

theorem route53Body_noType {r r' : JSON} (h : route53Body r = some r') : AliasHasNoType r' := by
  obtain ⟨rMap, hr, ⟨hn, e⟩ | ⟨aliasMap, _, e⟩⟩ := route53Body_some h
  · rw [e, hr]
    simp [AliasHasNoType, index_eq_null_of_isNil hn]
  · subst e
    simp only [AliasHasNoType, index_assign_same]
    exact not_mem_keys_delete aliasMap "type"

/-! ## C1: the encryption invariant -/

/-- C1. Whenever the patch of a generated document completes, the patched
document has a `resource` map in which every instance under
`aws_launch_configuration` has a `root_block_device` with `encrypted = true`,
and every element of every `ebs` list of every `block_device_mappings` element
of every instance under `aws_launch_template` has `encrypted = true`; when the
terraform output has a non-null `encryption_key_arn`, each of these volumes
has `kms_key_id` equal to it. -/
theorem encryption_invariant (kopsJSON terraformOutputJSON patched : JMap)
    (h : patchKopsJSON kopsJSON terraformOutputJSON = some patched) :
    ∃ resources, index patched "resource" = JSON.obj resources ∧
      EveryInstance resources "aws_launch_configuration"
        (LaunchConfigEncrypted terraformOutputJSON) ∧
      EveryInstance resources "aws_launch_template"
        (LaunchTemplateEncrypted terraformOutputJSON) := by
  obtain ⟨output, r, r', _, _, hres, e⟩ := patchKopsJSON_some h
  obtain ⟨r1, r2, h1, h2, h3⟩ := patchResources_some hres
  refine ⟨r', by rw [e, index_assign_same], ?_, ?_⟩
  · have a1 := patchCollection_everyInstance (LaunchConfigEncrypted terraformOutputJSON)
      (fun _ _ hb => launchConfigBody_encrypted hb) h1
    have a2 := everyInstance_congr _ (patchCollection_index_ne h2 (by decide)) a1
    exact everyInstance_congr _ (patchCollection_index_ne h3 (by decide)) a2
  · have a2 := patchCollection_everyInstance (LaunchTemplateEncrypted terraformOutputJSON)
      (fun _ _ hb => launchTemplateBody_encrypted hb) h2
    exact everyInstance_congr _ (patchCollection_index_ne h3 (by decide)) a2

/-- The encryption invariant on the example document. -/
theorem encryption_invariant_witness :
    ∃ resources, index examplePatched "resource" = JSON.obj resources ∧
      EveryInstance resources "aws_launch_configuration" (LaunchConfigEncrypted exampleOutput) ∧
      EveryInstance resources "aws_launch_template" (LaunchTemplateEncrypted exampleOutput) :=
  encryption_invariant exampleKopsJSON exampleOutput examplePatched rfl

/-! ## C2: the collision-free merge -/

/-- C2. Whenever the patch of a generated document completes, the patched
document has no top-level `provider` key and no top-level `terraform` key, its
`output` map has no `cluster_name` key, and no instance under
`resource.aws_route53_record` has a `type` key in its `alias` block. -/
theorem collision_free_merge (kopsJSON terraformOutputJSON patched : JMap)
    (h : patchKopsJSON kopsJSON terraformOutputJSON = some patched) :
    "provider" ∉ keys patched ∧ "terraform" ∉ keys patched ∧
    (∃ output, index patched "output" = JSON.obj output ∧ "cluster_name" ∉ keys output) ∧
    (∃ resources, index patched "resource" = JSON.obj resources ∧
      EveryInstance resources "aws_route53_record" AliasHasNoType) := by
  obtain ⟨output, r, r', _, _, hres, e⟩ := patchKopsJSON_some h
  obtain ⟨r1, r2, _, _, h3⟩ := patchResources_some hres
  subst e
  refine ⟨?_, ?_, ⟨delete output "cluster_name", ?_, not_mem_keys_delete _ _⟩, r', ?_, ?_⟩
  · simp [mem_keys_assign, mem_keys_delete]
  · simp [mem_keys_assign, mem_keys_delete]
  · rw [index_assign_ne _ _ _ _ (by decide), index_delete_ne _ _ _ (by decide),
      index_delete_ne _ _ _ (by decide), index_assign_same]
  · rw [index_assign_same]
  · exact patchCollection_everyInstance AliasHasNoType (fun _ _ hb => route53Body_noType hb) h3

/-- The collision-free merge on the example document. -/
theorem collision_free_merge_witness :
    "provider" ∉ keys examplePatched ∧ "terraform" ∉ keys examplePatched ∧
    (∃ output, index examplePatched "output" = JSON.obj output ∧ "cluster_name" ∉ keys output) ∧
    (∃ resources, index examplePatched "resource" = JSON.obj resources ∧
      EveryInstance resources "aws_route53_record" AliasHasNoType) :=
  collision_free_merge exampleKopsJSON exampleOutput examplePatched rfl

/-! ## C3: idempotence -/

theorem rangeMap_fixed (body : JSON → Option JSON)
    (hbody : ∀ x y, body x = some y → body y = some y) :
    ∀ (m m' : JMap), rangeMap body m = some m' → rangeMap body m' = some m' := by
  intro m
  induction m with
  | nil =>
    intro m' h
    simp [rangeMap] at h
    subst h
    rfl
  | cons p rest ih =>
    obtain ⟨k, v⟩ := p
    intro m' h
    simp only [rangeMap] at h
    cases hb : body v with
    | none => simp [hb] at h
    | some v' =>
      cases hr : rangeMap body rest with
      | none => simp [hb, hr] at h
      | some rest' =>
        simp [hb, hr] at h
        subst h
        simp [rangeMap, hbody v v' hb, ih rest' hr]

theorem rangeSlice_fixed (body : JSON → Option JSON)
    (hbody : ∀ x y, body x = some y → body y = some y) :
    ∀ (xs ys : List JSON), rangeSlice body xs = some ys → rangeSlice body ys = some ys := by
  intro xs
  induction xs with
  | nil =>
    intro ys h
    simp [rangeSlice] at h
    subst h
    rfl
  | cons v rest ih =>
    intro ys h
    simp only [rangeSlice] at h
    cases hb : body v with
    | none => simp [hb] at h
    | some v' =>
      cases hr : rangeSlice body rest with
      | none => simp [hb, hr] at h
      | some rest' =>
        simp [hb, hr] at h
        subst h
        simp [rangeSlice, hbody v v' hb, ih rest' hr]

theorem encryptVolume_idem (o volume : JMap) :
    encryptVolume o (encryptVolume o volume) = encryptVolume o volume := by
  unfold encryptVolume
  by_cases hn : (index o "encryption_key_arn").isNil = true
  · simp [hn, assign_assign]
  · simp only [hn, Bool.false_eq_true, if_false]
    have e : assign (assign (assign volume "encrypted" (JSON.bool true)) "kms_key_id"
        (index o "encryption_key_arn")) "encrypted" (JSON.bool true) =
        assign (assign volume "encrypted" (JSON.bool true)) "kms_key_id"
        (index o "encryption_key_arn") := by
      apply assign_of_find
      rw [find_assign_ne _ _ _ _ (by decide), find_assign_same]
    rw [e, assign_assign]

theorem launchConfigBody_fixed {o : JMap} {lc lc' : JSON}
    (h : launchConfigBody o lc = some lc') : launchConfigBody o lc' = some lc' := by
  obtain ⟨lcMap, rootVolume, _, _, e⟩ := launchConfigBody_some h
  subst e
  simp [launchConfigBody, assertMap, index_assign_same, encryptVolume_idem, assign_assign]

theorem ebsBody_fixed {o : JMap} {vol vol' : JSON}
    (h : ebsBody o vol = some vol') : ebsBody o vol' = some vol' := by
  obtain ⟨volume, _, e⟩ := ebsBody_some h
  subst e
  simp [ebsBody, assertMap, encryptVolume_idem]

theorem blockDeviceBody_fixed {o : JMap} {bd bd' : JSON}
    (h : blockDeviceBody o bd = some bd') : blockDeviceBody o bd' = some bd' := by
  obtain ⟨bdMap, ebs, ebs', _, _, hr, e⟩ := blockDeviceBody_some h
  subst e
  have hf := rangeSlice_fixed _ (fun _ _ hb => ebsBody_fixed hb) ebs ebs' hr
  simp [blockDeviceBody, assertMap, assertSlice, index_assign_same, hf, assign_assign]

theorem launchTemplateBody_fixed {o : JMap} {lt lt' : JSON}
    (h : launchTemplateBody o lt = some lt') : launchTemplateBody o lt' = some lt' := by
  obtain ⟨ltMap, bds, bds', _, _, hr, e⟩ := launchTemplateBody_some h
  subst e
  have hf := rangeSlice_fixed _ (fun _ _ hb => blockDeviceBody_fixed hb) bds bds' hr
  simp [launchTemplateBody, assertMap, assertSlice, index_assign_same, hf, assign_assign]

theorem route53Body_fixed {r r' : JSON} (h : route53Body r = some r') :
    route53Body r' = some r' := by
  obtain ⟨rMap, hr, ⟨_, e⟩ | ⟨aliasMap, _, e⟩⟩ := route53Body_some h
  · rw [e]
    rw [e] at h
    exact h
  · subst e
    simp [route53Body, assertMap, index_assign_same, JSON.isNil, delete_delete, assign_assign]

/-- Whether a guarded edit leaves a map as it is depends on the collection only. -/
theorem patchCollection_fixed_iff (key : String) (body : JSON → Option JSON) (r : JMap) :
    patchCollection key body r = some r ↔
      ((index r key).isNil = true ∨
        ∃ instances, index r key = JSON.obj instances ∧
          rangeMap body instances = some instances) := by
  constructor
  · intro h
    rcases patchCollection_some h with ⟨hn, _⟩ | ⟨instances, instances', hi, hr, e⟩
    · exact Or.inl hn
    · refine Or.inr ⟨instances, hi, ?_⟩
      have : index r key = JSON.obj instances' := by
        rw [e]
        exact index_assign_same _ _ _
      rw [hi] at this
      injection this with this
      rw [this]
      rw [this] at hr
      exact hr
  · rintro (hn | ⟨instances, hi, hr⟩)
    · simp [patchCollection, hn]
    · simp [patchCollection, hi, JSON.isNil, assertMap, hr]
      exact assign_of_index r key _ hi rfl

theorem patchCollection_fixed {key : String} {body : JSON → Option JSON} {r r' : JMap}
    (hbody : ∀ x y, body x = some y → body y = some y)
    (h : patchCollection key body r = some r') : patchCollection key body r' = some r' := by
  rw [patchCollection_fixed_iff]
  rcases patchCollection_some h with ⟨hn, e⟩ | ⟨instances, instances', _, hr, e⟩
  · rw [e]
    exact Or.inl hn
  · refine Or.inr ⟨instances', ?_, rangeMap_fixed body hbody instances instances' hr⟩
    rw [e]
    exact index_assign_same _ _ _

theorem patchCollection_fixed_congr {key : String} {body : JSON → Option JSON} {r r' : JMap}
    (hi : index r' key = index r key)
    (h : patchCollection key body r = some r) : patchCollection key body r' = some r' := by
  rw [patchCollection_fixed_iff] at h ⊢
  rw [hi]
  exact h

theorem patchResources_fixed {o : JMap} {r r' : JMap} (h : patchResources o r = some r') :
    patchResources o r' = some r' := by
  obtain ⟨r1, r2, h1, h2, h3⟩ := patchResources_some h
  have f1 : patchCollection "aws_launch_configuration" (launchConfigBody o) r' = some r' := by
    apply patchCollection_fixed_congr _
      (patchCollection_fixed (fun _ _ hb => launchConfigBody_fixed hb) h1)
    rw [patchCollection_index_ne h3 (by decide), patchCollection_index_ne h2 (by decide)]
  have f2 : patchCollection "aws_launch_template" (launchTemplateBody o) r' = some r' := by
    apply patchCollection_fixed_congr _
      (patchCollection_fixed (fun _ _ hb => launchTemplateBody_fixed hb) h2)
    rw [patchCollection_index_ne h3 (by decide)]
  have f3 : patchCollection "aws_route53_record" route53Body r' = some r' :=
    patchCollection_fixed (fun _ _ hb => route53Body_fixed hb) h3
  simp [patchResources, f1, f2, f3]

/-- C3. Whenever the patch of a generated document completes, patching the
result again with the same terraform output completes as well and returns
the result unchanged. -/
theorem patchKopsJSON_idempotent (kopsJSON terraformOutputJSON patched : JMap)
    (h : patchKopsJSON kopsJSON terraformOutputJSON = some patched) :
    patchKopsJSON patched terraformOutputJSON = some patched := by
  obtain ⟨output, r, r', _, _, hres, e⟩ := patchKopsJSON_some h
  have hout : index patched "output" = JSON.obj (delete output "cluster_name") := by
    rw [e, index_assign_ne _ _ _ _ (by decide), index_delete_ne _ _ _ (by decide),
      index_delete_ne _ _ _ (by decide), index_assign_same]
  have hr : index patched "resource" = JSON.obj r' := by
    rw [e, index_assign_same]
  have hp : "provider" ∉ keys patched := by
    rw [e]
    simp [mem_keys_assign, mem_keys_delete]
  have ht : "terraform" ∉ keys patched := by
    rw [e]
    simp [mem_keys_assign, mem_keys_delete]
  have e1 : assign patched "output" (JSON.obj (delete (delete output "cluster_name")
      "cluster_name")) = patched := by
    rw [delete_delete]
    exact assign_of_index _ _ _ hout rfl
  have e2 : assign patched "resource" (JSON.obj r') = patched :=
    assign_of_index _ _ _ hr rfl
  simp [patchKopsJSON, hout, assertMap, e1, delete_of_not_mem _ _ hp, delete_of_not_mem _ _ ht,
    hr, patchResources_fixed hres, e2]

/-- Idempotence on the example document. -/
theorem patchKopsJSON_idempotent_witness :
    patchKopsJSON examplePatched exampleOutput = some examplePatched :=
  patchKopsJSON_idempotent exampleKopsJSON exampleOutput examplePatched rfl

/-! ## C9: the frame of the patch -/

theorem mapEntries_assign_of_find (g : String → JSON → JSON) (m : JMap) (k : String)
    (v v' : JSON) (hf : find m k = some v) (hg : g k v' = g k v) :
    mapEntries g (assign m k v') = mapEntries g m := by
  induction m with
  | nil => simp [find] at hf
  | cons p rest ih =>
    obtain ⟨a, b⟩ := p
    by_cases ha : a = k
    · subst ha
      simp [find] at hf
      subst hf
      simp [assign, mapEntries, hg]
    · simp [find, ha] at hf
      have := ih hf
      simp only [mapEntries] at this
      simp [assign, ha, mapEntries, this]

theorem mapEntries_delete (g : String → JSON → JSON) (m : JMap) (k : String) :
    mapEntries g (delete m k) = delete (mapEntries g m) k := by
  induction m with
  | nil => simp [delete, mapEntries]
  | cons p rest ih =>
    obtain ⟨a, b⟩ := p
    simp only [mapEntries] at ih
    by_cases ha : a = k <;> simp [delete, ha, mapEntries, ih]

theorem rangeMap_frame (body : JSON → Option JSON) (f : JSON → JSON)
    (hbody : ∀ x y, body x = some y → f y = f x) :
    ∀ (m m' : JMap), rangeMap body m = some m' →
      mapEntries (fun _ v => f v) m' = mapEntries (fun _ v => f v) m := by
  intro m
  induction m with
  | nil =>
    intro m' h
    simp [rangeMap] at h
    subst h
    rfl
  | cons p rest ih =>
    obtain ⟨k, v⟩ := p
    intro m' h
    simp only [rangeMap] at h
    cases hb : body v with
    | none => simp [hb] at h
    | some v' =>
      cases hr : rangeMap body rest with
      | none => simp [hb, hr] at h
      | some rest' =>
        simp [hb, hr] at h
        subst h
        have := ih rest' hr
        simp only [mapEntries] at this
        simp [mapEntries, hbody v v' hb, this]

theorem rangeSlice_frame (body : JSON → Option JSON) (f : JSON → JSON)
    (hbody : ∀ x y, body x = some y → f y = f x) :
    ∀ (xs ys : List JSON), rangeSlice body xs = some ys → ys.map f = xs.map f := by
  intro xs
  induction xs with
  | nil =>
    intro ys h
    simp [rangeSlice] at h
    subst h
    rfl
  | cons v rest ih =>
    intro ys h
    simp only [rangeSlice] at h
    cases hb : body v with
    | none => simp [hb] at h
    | some v' =>
      cases hr : rangeSlice body rest with
      | none => simp [hb, hr] at h
      | some rest' =>
        simp [hb, hr] at h
        subst h
        simp [hbody v v' hb, ih rest' hr]

theorem find_of_index_obj {m : JMap} {k : String} {x : JMap} (h : index m k = JSON.obj x) :
    find m k = some (JSON.obj x) :=
  find_of_index m k _ h rfl

theorem find_of_index_arr {m : JMap} {k : String} {xs : List JSON}
    (h : index m k = JSON.arr xs) : find m k = some (JSON.arr xs) :=
  find_of_index m k _ h rfl

theorem eraseVolume_encryptVolume (withKey : Bool) (o volume : JMap)
    (hk : withKey = true ∨ hasKey o = false) :
    eraseVolume withKey (JSON.obj (encryptVolume o volume)) =
      eraseVolume withKey (JSON.obj volume) := by
  simp only [eraseVolume, onObj, encryptVolume]
  by_cases hn : (index o "encryption_key_arn").isNil = true
  · simp [hn, delete_assign_same]
  · have hw : withKey = true := by
      rcases hk with hk | hk
      · exact hk
      · simp [hasKey] at hk
        exact absurd hk hn
    simp only [hn, hw, Bool.false_eq_true, if_false, if_true]
    rw [delete_assign_ne _ _ _ _ (by decide), delete_assign_same, delete_assign_same]

theorem launchConfigBody_frame {withKey : Bool} {o : JMap} {lc lc' : JSON}
    (hk : withKey = true ∨ hasKey o = false) (h : launchConfigBody o lc = some lc') :
    eraseLaunchConfig withKey lc' = eraseLaunchConfig withKey lc := by
  obtain ⟨lcMap, rootVolume, e1, hi, e⟩ := launchConfigBody_some h
  subst e
  subst e1
  simp only [eraseLaunchConfig, onObj]
  rw [mapEntries_assign_of_find _ _ _ _ _ (find_of_index_obj hi)]
  simp [atKey, eraseVolume_encryptVolume withKey o rootVolume hk]

theorem ebsBody_frame {withKey : Bool} {o : JMap} {vol vol' : JSON}
    (hk : withKey = true ∨ hasKey o = false) (h : ebsBody o vol = some vol') :
    eraseVolume withKey vol' = eraseVolume withKey vol := by
  obtain ⟨volume, e1, e⟩ := ebsBody_some h
  subst e
  subst e1
  exact eraseVolume_encryptVolume withKey o volume hk

theorem blockDeviceBody_frame {withKey : Bool} {o : JMap} {bd bd' : JSON}
    (hk : withKey = true ∨ hasKey o = false) (h : blockDeviceBody o bd = some bd') :
    eraseBlockDevice withKey bd' = eraseBlockDevice withKey bd := by
  obtain ⟨bdMap, ebs, ebs', e1, hi, hr, e⟩ := blockDeviceBody_some h
  subst e
  subst e1
  simp only [eraseBlockDevice, onObj]
  rw [mapEntries_assign_of_find _ _ _ _ _ (find_of_index_arr hi)]
  simp [atKey, onArr, rangeSlice_frame _ _ (fun _ _ hb => ebsBody_frame hk hb) ebs ebs' hr]

theorem launchTemplateBody_frame {withKey : Bool} {o : JMap} {lt lt' : JSON}
    (hk : withKey = true ∨ hasKey o = false) (h : launchTemplateBody o lt = some lt') :
    eraseLaunchTemplate withKey lt' = eraseLaunchTemplate withKey lt := by
  obtain ⟨ltMap, bds, bds', e1, hi, hr, e⟩ := launchTemplateBody_some h
  subst e
  subst e1
  simp only [eraseLaunchTemplate, onObj]
  rw [mapEntries_assign_of_find _ _ _ _ _ (find_of_index_arr hi)]
  simp [atKey, onArr,
    rangeSlice_frame _ _ (fun _ _ hb => blockDeviceBody_frame hk hb) bds bds' hr]

theorem route53Body_frame {r r' : JSON} (h : route53Body r = some r') :
    eraseRoute53 r' = eraseRoute53 r := by
  obtain ⟨rMap, e1, ⟨_, e⟩ | ⟨aliasMap, hi, e⟩⟩ := route53Body_some h
  · rw [e]
  · subst e
    subst e1
    simp only [eraseRoute53, onObj]
    rw [mapEntries_assign_of_find _ _ _ _ _ (find_of_index_obj hi)]
    simp [atKey, onObj, delete_delete]

/-- A guarded edit changes nothing that the erasure `g` keeps, when `g` erases,
under the key of the collection, what the body of the loop changes. -/
theorem patchCollection_frame {key : String} {body : JSON → Option JSON} {r r' : JMap}
    (g : String → JSON → JSON) (f : JSON → JSON) (hg : g key = eachInstance f)
    (hbody : ∀ x y, body x = some y → f y = f x)
    (h : patchCollection key body r = some r') : mapEntries g r' = mapEntries g r := by
  rcases patchCollection_some h with ⟨_, e⟩ | ⟨instances, instances', hi, hr, e⟩
  · rw [e]
  · subst e
    apply mapEntries_assign_of_find _ _ _ _ _ (find_of_index_obj hi)
    rw [hg]
    simp [eachInstance, onObj, rangeMap_frame body f hbody instances instances' hr]

theorem patchResources_frame {withKey : Bool} {o : JMap} {r r' : JMap}
    (hk : withKey = true ∨ hasKey o = false) (h : patchResources o r = some r') :
    mapEntries (eraseCollection withKey) r' = mapEntries (eraseCollection withKey) r := by
  obtain ⟨r1, r2, h1, h2, h3⟩ := patchResources_some h
  rw [patchCollection_frame (eraseCollection withKey) eraseRoute53 (by funext v; rfl)
      (fun _ _ hb => route53Body_frame hb) h3,
    patchCollection_frame (eraseCollection withKey) (eraseLaunchTemplate withKey)
      (by funext v; rfl) (fun _ _ hb => launchTemplateBody_frame hk hb) h2,
    patchCollection_frame (eraseCollection withKey) (eraseLaunchConfig withKey)
      (by funext v; rfl) (fun _ _ hb => launchConfigBody_frame hk hb) h1]

theorem patchKopsJSON_erase {withKey : Bool} {d o d' : JMap}
    (hk : withKey = true ∨ hasKey o = false) (h : patchKopsJSON d o = some d') :
    erase withKey d' = erase withKey d := by
  obtain ⟨output, r, r', hout, hr, hres, e⟩ := patchKopsJSON_some h
  subst e
  unfold erase
  have hfr : find (delete (delete (assign d "output" (JSON.obj (delete output "cluster_name")))
      "provider") "terraform") "resource" = some (JSON.obj r) := by
    rw [find_delete_ne _ _ _ (by decide), find_delete_ne _ _ _ (by decide),
      find_assign_ne _ _ _ _ (by decide)]
    exact find_of_index_obj hr
  have e1 : mapEntries (eraseTop withKey) (assign (delete (delete (assign d "output"
      (JSON.obj (delete output "cluster_name"))) "provider") "terraform") "resource"
      (JSON.obj r')) = mapEntries (eraseTop withKey) (delete (delete (assign d "output"
      (JSON.obj (delete output "cluster_name"))) "provider") "terraform") := by
    apply mapEntries_assign_of_find _ _ _ _ _ hfr
    simp [eraseTop, onObj, patchResources_frame hk hres]
  have e2 : mapEntries (eraseTop withKey) (assign d "output"
      (JSON.obj (delete output "cluster_name"))) = mapEntries (eraseTop withKey) d := by
    apply mapEntries_assign_of_find _ _ _ _ _ (find_of_index_obj hout)
    simp [eraseTop, onObj, delete_delete]
  rw [mapEntries_delete, mapEntries_delete, e1, mapEntries_delete, mapEntries_delete, e2,
    mapEntries_delete, mapEntries_delete]
  generalize mapEntries (eraseTop withKey) d = m
  rw [delete_comm (delete m "provider") "terraform" "provider", delete_delete, delete_delete]

/-- C9. Whenever the patch of a generated document completes, the document and
the patched document are equal once `output.cluster_name`, top-level
`provider` and `terraform`, `encrypted` and `kms_key_id` of the
launch-configuration root volumes and launch-template `ebs` volumes, and
`alias.type` of the route53 records are erased from both; and when the
terraform output has no (or a null) `encryption_key_arn`, they are equal
already when `kms_key_id` is kept. -/
theorem patchKopsJSON_frame (kopsJSON terraformOutputJSON patched : JMap)
    (h : patchKopsJSON kopsJSON terraformOutputJSON = some patched) :
    erase true patched = erase true kopsJSON ∧
    (hasKey terraformOutputJSON = false → erase false patched = erase false kopsJSON) :=
  ⟨patchKopsJSON_erase (Or.inl rfl) h, fun hk => patchKopsJSON_erase (Or.inr hk) h⟩

/-- The frame on the example document, with and without an encryption key. -/
theorem patchKopsJSON_frame_witness :
    (erase true examplePatched = erase true exampleKopsJSON ∧
      (hasKey exampleOutput = false → erase false examplePatched = erase false exampleKopsJSON)) ∧
    (erase true examplePatchedNoKey = erase true exampleKopsJSON ∧
      (hasKey [] = false → erase false examplePatchedNoKey = erase false exampleKopsJSON)) :=
  ⟨patchKopsJSON_frame exampleKopsJSON exampleOutput examplePatched rfl,
   patchKopsJSON_frame exampleKopsJSON [] examplePatchedNoKey rfl⟩

/-! ## C7: when the patch completes -/

theorem rangeMap_isSome (body : JSON → Option JSON) (m : JMap) :
    (rangeMap body m).isSome = m.all (fun kv => (body kv.2).isSome) := by
  induction m with
  | nil => simp [rangeMap]
  | cons p rest ih =>
    obtain ⟨k, v⟩ := p
    simp only [rangeMap, List.all_cons]
    cases hb : body v with
    | none => simp
    | some v' =>
      rw [← ih]
      cases hr : rangeMap body rest <;> simp

theorem rangeSlice_isSome (body : JSON → Option JSON) (xs : List JSON) :
    (rangeSlice body xs).isSome = xs.all (fun v => (body v).isSome) := by
  induction xs with
  | nil => simp [rangeSlice]
  | cons v rest ih =>
    simp only [rangeSlice, List.all_cons]
    cases hb : body v with
    | none => simp
    | some v' =>
      rw [← ih]
      cases hr : rangeSlice body rest <;> simp

theorem launchConfigBody_isSome (o : JMap) (lc : JSON) :
    (launchConfigBody o lc).isSome = launchConfigShaped lc := by
  cases lc <;> simp [launchConfigBody, assertMap, launchConfigShaped]
  rename_i lcMap
  cases index lcMap "root_block_device" <;> simp [JSON.isMap]

theorem ebsBody_isSome (o : JMap) (vol : JSON) : (ebsBody o vol).isSome = vol.isMap := by
  cases vol <;> simp [ebsBody, assertMap, JSON.isMap]

theorem blockDeviceBody_isSome (o : JMap) (bd : JSON) :
    (blockDeviceBody o bd).isSome = blockDeviceShaped bd := by
  cases bd <;> simp [blockDeviceBody, assertMap, blockDeviceShaped]
  rename_i bdMap
  cases hi : index bdMap "ebs" <;> simp [assertSlice]
  rename_i ebs
  have h := rangeSlice_isSome (ebsBody o) ebs
  rw [show (fun v => (ebsBody o v).isSome) = JSON.isMap from funext (ebsBody_isSome o)] at h
  cases hr : rangeSlice (ebsBody o) ebs with
  | none =>
    rw [hr] at h
    simp at h
    simp [h]
  | some ebs' =>
    rw [hr] at h
    simp at h
    simpa using h

theorem launchTemplateBody_isSome (o : JMap) (lt : JSON) :
    (launchTemplateBody o lt).isSome = launchTemplateShaped lt := by
  cases lt <;> simp [launchTemplateBody, assertMap, launchTemplateShaped]
  rename_i ltMap
  cases hi : index ltMap "block_device_mappings" <;> simp [assertSlice]
  rename_i bds
  have h := rangeSlice_isSome (blockDeviceBody o) bds
  rw [show (fun v => (blockDeviceBody o v).isSome) = blockDeviceShaped from
    funext (blockDeviceBody_isSome o)] at h
  cases hr : rangeSlice (blockDeviceBody o) bds with
  | none =>
    rw [hr] at h
    simp at h
    simp [h]
  | some bds' =>
    rw [hr] at h
    simp at h
    simpa using h

theorem route53Body_isSome (r : JSON) : (route53Body r).isSome = route53Shaped r := by
  cases r <;> simp [route53Body, assertMap, route53Shaped]
  rename_i rMap
  cases hi : index rMap "alias" <;> simp [JSON.isNil, JSON.isMap]

theorem patchCollection_isSome (key : String) (body : JSON → Option JSON)
    (shaped : JSON → Bool) (hbody : ∀ v, (body v).isSome = shaped v) (r : JMap) :
    (patchCollection key body r).isSome = collectionShaped shaped r key := by
  unfold patchCollection collectionShaped
  cases hi : index r key <;> simp [JSON.isNil, assertMap]
  rename_i instances
  have h := rangeMap_isSome body instances
  rw [show (fun kv : String × JSON => (body kv.2).isSome) = (fun kv => shaped kv.2) from
    funext (fun kv => hbody kv.2)] at h
  cases hr : rangeMap body instances with
  | none =>
    rw [hr] at h
    simp at h
    simp [h]
  | some instances' =>
    rw [hr] at h
    simp at h
    simpa using h

theorem collectionShaped_congr {shaped : JSON → Bool} {r r' : JMap} {key : String}
    (h : index r' key = index r key) :
    collectionShaped shaped r' key = collectionShaped shaped r key := by
  unfold collectionShaped
  rw [h]

theorem patchResources_isSome (o : JMap) (r : JMap) :
    (patchResources o r).isSome =
      (collectionShaped launchConfigShaped r "aws_launch_configuration" &&
       collectionShaped launchTemplateShaped r "aws_launch_template" &&
       collectionShaped route53Shaped r "aws_route53_record") := by
  rw [← patchCollection_isSome "aws_launch_configuration" (launchConfigBody o) _
    (launchConfigBody_isSome o) r]
  simp only [patchResources, bind, Option.bind]
  cases h1 : patchCollection "aws_launch_configuration" (launchConfigBody o) r with
  | none => simp
  | some r1 =>
    rw [← collectionShaped_congr (patchCollection_index_ne h1 (by decide)),
      ← patchCollection_isSome "aws_launch_template" (launchTemplateBody o) _
        (launchTemplateBody_isSome o) r1]
    cases h2 : patchCollection "aws_launch_template" (launchTemplateBody o) r1 with
    | none => simp [h2]
    | some r2 =>
      rw [← collectionShaped_congr (patchCollection_index_ne h1 (by decide)),
        ← collectionShaped_congr (patchCollection_index_ne h2 (by decide)),
        ← patchCollection_isSome "aws_route53_record" route53Body _ route53Body_isSome r2]
      simp [h2]

theorem patchKopsJSON_isSome (d o : JMap) :
    (patchKopsJSON d o).isSome = documentShaped d := by
  unfold documentShaped
  simp only [patchKopsJSON, bind, Option.bind]
  cases ho : index d "output" <;> simp [assertMap, JSON.isMap]
  rename_i output
  rw [index_delete_ne _ _ _ (by decide), index_delete_ne _ _ _ (by decide),
    index_assign_ne _ _ _ _ (by decide)]
  cases hr : index d "resource" <;> simp
  rename_i r
  rw [← patchResources_isSome o r]
  cases hp : patchResources o r <;> simp [hp]

theorem patchCollection_find_ne {key key' : String} {body : JSON → Option JSON} {r r' : JMap}
    (h : patchCollection key body r = some r') (hne : key' ≠ key) :
    find r' key' = find r key' := by
  rcases patchCollection_some h with ⟨_, e⟩ | ⟨_, instances', _, _, e⟩
  · rw [e]
  · rw [e, find_assign_ne _ _ _ _ hne]

/-- A guarded edit between two steps that leave its collection alone is
skipped or applied, according to whether the collection is absent. -/
theorem patchCollection_edit {key : String} {body : JSON → Option JSON} {a b c d : JMap}
    (hpre : find b key = find a key) (h : patchCollection key body b = some c)
    (hpost : find d key = find c key) :
    EditSkipped a d key ∨ EditApplied body a d key := by
  have ipre : index b key = index a key := by simp [index, hpre]
  have ipost : index d key = index c key := by simp [index, hpost]
  rcases patchCollection_some h with ⟨hn, e⟩ | ⟨instances, instances', hi, hr, e⟩
  · left
    refine ⟨by rw [← ipre]; exact hn, ?_⟩
    rw [hpost, e, hpre]
  · right
    refine ⟨instances, instances', by rw [← ipre]; exact hi, hr, ?_⟩
    rw [ipost, e, index_assign_same]

/-- C7, as the code has it. The patch of a generated document completes exactly
when the document has the shape the type assertions ask for: `output` and
`resource` are maps and each of the three collections is absent, null or a map
of well-shaped instances. When it completes, each of the three edits is
skipped if its collection is absent or null, and applied to every instance
otherwise. -/
theorem patchKopsJSON_completes (kopsJSON terraformOutputJSON : JMap) :
    (patchKopsJSON kopsJSON terraformOutputJSON).isSome = documentShaped kopsJSON ∧
    ∀ patched, patchKopsJSON kopsJSON terraformOutputJSON = some patched →
      ∃ r r', index kopsJSON "resource" = JSON.obj r ∧ index patched "resource" = JSON.obj r' ∧
        (EditSkipped r r' "aws_launch_configuration" ∨
          EditApplied (launchConfigBody terraformOutputJSON) r r' "aws_launch_configuration") ∧
        (EditSkipped r r' "aws_launch_template" ∨
          EditApplied (launchTemplateBody terraformOutputJSON) r r' "aws_launch_template") ∧
        (EditSkipped r r' "aws_route53_record" ∨
          EditApplied route53Body r r' "aws_route53_record") := by
  refine ⟨patchKopsJSON_isSome _ _, ?_⟩
  intro patched h
  obtain ⟨output, r, r', _, hr, hres, e⟩ := patchKopsJSON_some h
  obtain ⟨r1, r2, h1, h2, h3⟩ := patchResources_some hres
  refine ⟨r, r', hr, by rw [e, index_assign_same], ?_, ?_, ?_⟩
  · apply patchCollection_edit rfl h1
    rw [patchCollection_find_ne h3 (by decide), patchCollection_find_ne h2 (by decide)]
  · apply patchCollection_edit (patchCollection_find_ne h1 (by decide)) h2
    rw [patchCollection_find_ne h3 (by decide)]
  · exact patchCollection_edit (by
      rw [patchCollection_find_ne h2 (by decide), patchCollection_find_ne h1 (by decide)]) h3 rfl

/-- A document with no `output` key makes the patch panic, and so does one
with no `resource` key. -/
theorem patchKopsJSON_panics_without_output_or_resource :
    patchKopsJSON [] [] = none ∧
    patchKopsJSON [("resource", JSON.obj [])] [] = none ∧
    patchKopsJSON [("output", JSON.obj [])] [] = none :=
  ⟨rfl, rfl, rfl⟩

/-- The patch completes on the example document and on a document with none of
the three collections, and does not on the empty document. -/
theorem patchKopsJSON_completes_witness :
    (patchKopsJSON exampleKopsJSON exampleOutput).isSome = true ∧
    (patchKopsJSON exampleBare exampleOutput).isSome = true ∧
    (patchKopsJSON [] exampleOutput).isSome = false :=
  ⟨(patchKopsJSON_completes exampleKopsJSON exampleOutput).1.trans (by decide),
   (patchKopsJSON_completes exampleBare exampleOutput).1.trans (by decide),
   (patchKopsJSON_completes [] exampleOutput).1.trans (by decide)⟩

/-! ## C4 and C8: one iteration of the validation loop -/

theorem countExpectedFailures_shaped (failures : List JSON) :
    ∀ n, failures.all failureShaped = true →
      countExpectedFailures failures n = some (n + failures.countP failureExpected) := by
  induction failures with
  | nil => intro n _; simp [countExpectedFailures]
  | cons f rest ih =>
    intro n h
    simp only [List.all_cons, Bool.and_eq_true] at h
    obtain ⟨hf, hrest⟩ := h
    cases f <;> simp [failureShaped] at hf
    rename_i failure
    cases hn : index failure "name" <;> simp [hn] at hf
    rename_i name
    simp only [countExpectedFailures, assertMap, assertString, hn, bind, Option.bind]
    rw [ih _ hrest]
    by_cases hp : HasPrefix name "kube-system/aws-iam-authenticator" = true
    · simp [hp, failureExpected, hn, List.countP_cons]
      omega
    · simp [hp, failureExpected, hn, List.countP_cons]

theorem validationIteration_shaped (report : JMap) (h : reportShaped report = true) :
    validationIteration (some (JSON.obj report)) =
      some (if reportPasses report = true then PollStep.exit else PollStep.retry 30) := by
  unfold reportShaped at h
  unfold reportPasses validationIteration
  cases hf : index report "failures" with
  | null => simp [unmarshalMap, JSON.isNil, hf]
  | bool b => simp [hf] at h
  | num x => simp [hf] at h
  | str x => simp [hf] at h
  | obj x => simp [hf] at h
  | arr failures =>
  rw [hf] at h
  have hall : failures.all failureShaped = true := h
  simp only [unmarshalMap, JSON.isNil, assertSlice, hf, Bool.false_eq_true, if_false, bind,
    Option.bind]
  rw [countExpectedFailures_shaped failures 0 hall]
  simp only [Nat.zero_add, bind, Option.bind, pure]
  by_cases hp : ∀ x ∈ failures, failureExpected x = true
  · have hc : List.countP failureExpected failures = failures.length :=
      List.countP_eq_length.2 hp
    simp only [hc, if_true]
    simp [hp]
    rw [if_pos hp]
  · have hc : ¬ failures.length = List.countP failureExpected failures := by
      intro e
      exact hp (List.countP_eq_length.1 e.symm)
    simp [hc, hp]

/-- C4. For every validation report that is a JSON object whose `failures`, if
present, is a list of maps with a string `name`, one iteration of the
validation loop exits when the report has no (or null) `failures` or every
failure's name starts with `kube-system/aws-iam-authenticator`, and sleeps 30
seconds and retries otherwise. -/
theorem validation_pass_predicate (report : JMap) (h : reportShaped report = true) :
    validationIteration (some (JSON.obj report)) =
      some (if reportPasses report = true then PollStep.exit else PollStep.retry 30) :=
  validationIteration_shaped report h

/-- The two reports of the specification: one expected failure exits, an
expected and an unexpected failure retry. -/
theorem validation_pass_predicate_witness :
    validationIteration (some (JSON.obj [("failures", JSON.arr
      [JSON.obj [("name", JSON.str "kube-system/aws-iam-authenticator-x")]])])) =
      some PollStep.exit ∧
    validationIteration (some (JSON.obj [("failures", JSON.arr
      [JSON.obj [("name", JSON.str "kube-system/aws-iam-authenticator-x")],
       JSON.obj [("name", JSON.str "other-check")]])])) =
      some (PollStep.retry 30) :=
  ⟨(validation_pass_predicate _ (by decide)).trans (by decide),
   (validation_pass_predicate _ (by decide)).trans (by decide)⟩

/-- A report whose `failures` is a string, and one whose failure has a number
as `name`, make the iteration panic: it does not sleep and retry. -/
theorem validationIteration_panics_on_malformed_failures :
    validationIteration (some (JSON.obj [("failures", JSON.str "timeout")])) = none ∧
    validationIteration (some (JSON.obj [("failures", JSON.arr
      [JSON.obj [("name", JSON.num 1)]])])) = none ∧
    validationIteration (some (JSON.obj [("failures", JSON.arr [JSON.obj []])])) = none :=
  ⟨by decide, by decide, by decide⟩

/-- C8, as the code has it. When the output of `kops validate` is not a JSON
text, or is a JSON value that is not an object, one iteration of the
validation loop sleeps 30 seconds and retries, and does not panic. -/
theorem validationIteration_unparseable (validateBytes : Option JSON)
    (h : ∀ report, validateBytes ≠ some (JSON.obj report)) :
    validationIteration validateBytes = some (PollStep.retry 30) := by
  unfold validationIteration
  cases validateBytes with
  | none => rfl
  | some v =>
    cases v with
    | obj report => exact absurd rfl (h report)
    | _ => rfl

/-- Output that is not JSON, and the JSON texts `null` and `[]`, retry. -/
theorem validationIteration_unparseable_witness :
    validationIteration none = some (PollStep.retry 30) ∧
    validationIteration (some JSON.null) = some (PollStep.retry 30) ∧
    validationIteration (some (JSON.arr [])) = some (PollStep.retry 30) :=
  ⟨validationIteration_unparseable none (by intro r e; cases e),
   validationIteration_unparseable (some JSON.null) (by intro r e; cases e),
   validationIteration_unparseable (some (JSON.arr [])) (by intro r e; cases e)⟩

/-! ## C10: the state bucket name is not injective -/

theorem splitSlash_ne_nil (p : List Char) : splitSlash p ≠ [] := by
  cases p with
  | nil => simp [splitSlash]
  | cons c cs =>
    simp only [splitSlash]
    split
    · simp
    · split <;> simp

theorem splitSlash_append_slash (p q : List Char) :
    splitSlash (p ++ '/' :: q) = splitSlash p ++ splitSlash q := by
  induction p with
  | nil => simp [splitSlash]
  | cons c cs ih =>
    by_cases hc : c = '/'
    · simp [splitSlash, hc, ih]
    · simp only [List.cons_append, splitSlash, hc, if_false]
      have ih' : splitSlash (cs.append ('/' :: q)) = splitSlash cs ++ splitSlash q := ih
      rw [ih']
      cases hs : splitSlash cs with
      | nil => exact absurd hs (splitSlash_ne_nil cs)
      | cons e es => simp

theorem joinSlash_append_singleton (es : List (List Char)) :
    ∃ pre : List Char, ∀ e, joinSlash (es ++ [e]) = pre ++ e := by
  induction es with
  | nil => exact ⟨[], fun e => by simp [joinSlash]⟩
  | cons x rest ih =>
    obtain ⟨pre, hpre⟩ := ih
    refine ⟨x ++ '/' :: pre, fun e => ?_⟩
    cases rest with
    | nil =>
      have := hpre e
      simp [joinSlash] at this
      simp [joinSlash, this]
    | cons y ys =>
      have := hpre e
      simp only [List.cons_append] at this
      simp [joinSlash, this]

theorem cleanPush_plain (rooted : Bool) (kept : List (List Char)) (e : List Char)
    (he : PlainElement e) : cleanPush rooted kept e = e :: kept := by
  obtain ⟨_, h1, h2, h3⟩ := he
  simp [cleanPush, h1, h2, h3]

/-- A path that ends in a slash and a plain element is cleaned to a path that
ends in that element, after a part that only depends on what comes before. -/
theorem pathClean_append (p : List Char) (hp : p ≠ []) :
    ∃ pre : List Char, ∀ e, PlainElement e → pathClean (p ++ '/' :: e) = pre ++ e := by
  have hhead : ∀ q : List Char, (p ++ q).head? = p.head? := by
    intro q
    cases p with
    | nil => exact absurd rfl hp
    | cons c cs => rfl
  obtain ⟨pre, hpre⟩ := joinSlash_append_singleton
    ((splitSlash p).foldl (cleanPush (decide (p.head? = some '/'))) []).reverse
  by_cases hr : p.head? = some '/'
  · refine ⟨'/' :: pre, fun e he => ?_⟩
    unfold pathClean
    simp only [hhead, splitSlash_append_slash, he.1, List.foldl_append, List.foldl_cons,
      List.foldl_nil]
    rw [cleanPush_plain _ _ _ he, if_pos hr, List.reverse_cons, hpre]
    rfl
  · refine ⟨pre, fun e he => ?_⟩
    unfold pathClean
    simp only [hhead, splitSlash_append_slash, he.1, List.foldl_append, List.foldl_cons,
      List.foldl_nil]
    rw [cleanPush_plain _ _ _ he, if_neg hr, if_neg (List.cons_ne_nil _ _), List.reverse_cons,
      hpre]

theorem localStateDir_ne (tempDir : String) :
    localStateDir tempDir "a.b" ≠ localStateDir tempDir "a-b" := by
  by_cases ht : tempDir = ""
  · subst ht
    decide
  · have hd : tempDir.data ≠ [] := by
      intro e
      apply ht
      cases tempDir
      simp at e
      simp [e]
    obtain ⟨pre, h⟩ := pathClean_append tempDir.data hd
    have h1 := h "a.b".data ⟨by decide, by decide, by decide, by decide⟩
    have h2 := h "a-b".data ⟨by decide, by decide, by decide, by decide⟩
    have f1 : localStateDir tempDir "a.b" = String.mk (pre ++ "a.b".data) := by
      rw [← h1]
      simp [localStateDir, pathJoin, List.filter, ht, joinSlash]
    have f2 : localStateDir tempDir "a-b" = String.mk (pre ++ "a-b".data) := by
      rw [← h2]
      simp [localStateDir, pathJoin, List.filter, ht, joinSlash]
    rw [f1, f2]
    intro e
    injection e with e
    have := List.append_cancel_left e
    revert this
    decide

/-- C10. The cluster names `a.b` and `a-b` are distinct and derive the same
state bucket name, `a-b-state`, while their local state directories differ
whatever `os.TempDir()` returns. -/
theorem stateBucketName_not_injective :
    "a.b" ≠ "a-b" ∧
    stateBucketName "a.b" = "a-b-state" ∧ stateBucketName "a-b" = "a-b-state" ∧
    ∀ tempDir, localStateDir tempDir "a.b" ≠ localStateDir tempDir "a-b" :=
  ⟨by decide, by decide, by decide, localStateDir_ne⟩

/-! ## The run: what its trace looks like -/

theorem pure_run {α : Type} (a : α) (s : RunState) :
    (pure a : Run α) s = (Outcome.done a, s) := rfl

theorem bind_run {α β : Type} (m : Run α) (f : α → Run β) (s : RunState) :
    (m >>= f) s =
      match m s with
      | (Outcome.done a, s') => f a s'
      | (Outcome.panicked, s') => (Outcome.panicked, s')
      | (Outcome.outOfFuel, s') => (Outcome.outOfFuel, s') := rfl

/-- A run of `beforeValidation` in which the existence probe fails follows the
plan of a new cluster up to some event, and all of it when it returns; it
writes `isNewCluster` at its declaration and after the probe, and reads true
every time. -/
theorem beforeValidation_new (c : Config) (w : World) (h0 : w.succeeds 0 = false) :
    ∃ n o k, beforeValidation c w firstState =
        (o, ⟨(plan c true).take n, true, [(0, false), (1, true)], List.replicate k true⟩) ∧
      (o = Outcome.done () → n = 13 ∧ k = 4) ∧ o ≠ Outcome.outOfFuel ∧ 2 ≤ n := by
  by_cases h1 : w.succeeds 1 = true
  swap
  · refine ⟨2, Outcome.panicked, 0, ?_⟩
    simp [beforeValidation, exportAdminKubeconfig, bind_run, pure_run, firstState, setIsNewCluster,
      getIsNewCluster, shellHandled, shell, call, emit, orPanic, goPanic, plan, List.replicate, *]
  by_cases h3 : w.succeeds 3 = true
  swap
  · refine ⟨4, Outcome.panicked, 2, ?_⟩
    simp [beforeValidation, exportAdminKubeconfig, bind_run, pure_run, firstState, setIsNewCluster,
      getIsNewCluster, shellHandled, shell, call, emit, orPanic, goPanic, plan, List.replicate, *]
  by_cases h4 : w.succeeds 4 = true
  swap
  · refine ⟨5, Outcome.panicked, 3, ?_⟩
    simp [beforeValidation, exportAdminKubeconfig, bind_run, pure_run, firstState, setIsNewCluster,
      getIsNewCluster, shellHandled, shell, call, emit, orPanic, goPanic, plan, List.replicate, *]
  by_cases h6 : w.succeeds 6 = true
  swap
  · refine ⟨7, Outcome.panicked, 3, ?_⟩
    simp [beforeValidation, exportAdminKubeconfig, bind_run, pure_run, firstState, setIsNewCluster,
      getIsNewCluster, shellHandled, shell, call, emit, orPanic, goPanic, plan, List.replicate, *]
  cases hk : w.kopsJSON with
  | none =>
    refine ⟨7, Outcome.panicked, 3, ?_⟩
    simp [beforeValidation, exportAdminKubeconfig, bind_run, pure_run, firstState, setIsNewCluster,
      getIsNewCluster, shellHandled, shell, call, emit, orPanic, goPanic, plan, List.replicate, *]
  | some kopsJSON =>
  cases ha : assertMap (index kopsJSON "output") with
  | none =>
    refine ⟨7, Outcome.panicked, 3, ?_⟩
    simp [beforeValidation, exportAdminKubeconfig, bind_run, pure_run, firstState, setIsNewCluster,
      getIsNewCluster, shellHandled, shell, call, emit, orPanic, goPanic, plan, List.replicate, *]
  | some output =>
  by_cases h7 : w.succeeds 7 = true
  swap
  · refine ⟨8, Outcome.panicked, 3, ?_⟩
    simp [beforeValidation, exportAdminKubeconfig, bind_run, pure_run, firstState, setIsNewCluster,
      getIsNewCluster, shellHandled, shell, call, emit, orPanic, goPanic, plan, List.replicate, *]
  cases hp : patchKopsJSON kopsJSON w.terraformOutputJSON with
  | none =>
    refine ⟨8, Outcome.panicked, 3, ?_⟩
    simp [beforeValidation, exportAdminKubeconfig, bind_run, pure_run, firstState, setIsNewCluster,
      getIsNewCluster, shellHandled, shell, call, emit, orPanic, goPanic, plan, List.replicate, *]
  | some patched =>
  by_cases h8 : w.succeeds 8 = true
  swap
  · refine ⟨9, Outcome.panicked, 3, ?_⟩
    simp [beforeValidation, exportAdminKubeconfig, bind_run, pure_run, firstState, setIsNewCluster,
      getIsNewCluster, shellHandled, shell, call, emit, orPanic, goPanic, plan, List.replicate, *]
  by_cases h9 : w.succeeds 9 = true
  swap
  · refine ⟨10, Outcome.panicked, 3, ?_⟩
    simp [beforeValidation, exportAdminKubeconfig, bind_run, pure_run, firstState, setIsNewCluster,
      getIsNewCluster, shellHandled, shell, call, emit, orPanic, goPanic, plan, List.replicate, *]
  by_cases h10 : w.succeeds 10 = true
  swap
  · refine ⟨11, Outcome.panicked, 3, ?_⟩
    simp [beforeValidation, exportAdminKubeconfig, bind_run, pure_run, firstState, setIsNewCluster,
      getIsNewCluster, shellHandled, shell, call, emit, orPanic, goPanic, plan, List.replicate, *]
  by_cases h11 : w.succeeds 11 = true
  swap
  · refine ⟨12, Outcome.panicked, 3, ?_⟩
    simp [beforeValidation, exportAdminKubeconfig, bind_run, pure_run, firstState, setIsNewCluster,
      getIsNewCluster, shellHandled, shell, call, emit, orPanic, goPanic, plan, List.replicate, *]
  refine ⟨13, Outcome.done (), 4, ?_⟩
  simp [beforeValidation, exportAdminKubeconfig, bind_run, pure_run, firstState, setIsNewCluster,
      getIsNewCluster, shellHandled, shell, call, emit, orPanic, goPanic, plan, List.replicate, *]

/-- A run of `beforeValidation` in which the existence probe succeeds follows
the plan of an existing cluster up to some event, and all of it when it
returns; it writes `isNewCluster` at its declaration only, and reads false
every time. -/
theorem beforeValidation_existing (c : Config) (w : World) (h0 : w.succeeds 0 = true) :
    ∃ n o k, beforeValidation c w firstState =
        (o, ⟨(plan c false).take n, false, [(0, false)], List.replicate k false⟩) ∧
      (o = Outcome.done () → n = 12 ∧ k = 4) ∧ o ≠ Outcome.outOfFuel ∧ 2 ≤ n := by
  by_cases h1 : w.succeeds 1 = true
  swap
  · refine ⟨2, Outcome.panicked, 0, ?_⟩
    simp [beforeValidation, exportAdminKubeconfig, bind_run, pure_run, firstState, setIsNewCluster,
      getIsNewCluster, shellHandled, shell, call, emit, orPanic, goPanic, plan, List.replicate, *]
  by_cases h2 : w.succeeds 2 = true
  swap
  · refine ⟨3, Outcome.panicked, 1, ?_⟩
    simp [beforeValidation, exportAdminKubeconfig, bind_run, pure_run, firstState, setIsNewCluster,
      getIsNewCluster, shellHandled, shell, call, emit, orPanic, goPanic, plan, List.replicate, *]
  by_cases h4 : w.succeeds 4 = true
  swap
  · refine ⟨5, Outcome.panicked, 2, ?_⟩
    simp [beforeValidation, exportAdminKubeconfig, bind_run, pure_run, firstState, setIsNewCluster,
      getIsNewCluster, shellHandled, shell, call, emit, orPanic, goPanic, plan, List.replicate, *]
  by_cases h5 : w.succeeds 5 = true
  swap
  · refine ⟨6, Outcome.panicked, 3, ?_⟩
    simp [beforeValidation, exportAdminKubeconfig, bind_run, pure_run, firstState, setIsNewCluster,
      getIsNewCluster, shellHandled, shell, call, emit, orPanic, goPanic, plan, List.replicate, *]
  cases hk : w.kopsJSON with
  | none =>
    refine ⟨6, Outcome.panicked, 3, ?_⟩
    simp [beforeValidation, exportAdminKubeconfig, bind_run, pure_run, firstState, setIsNewCluster,
      getIsNewCluster, shellHandled, shell, call, emit, orPanic, goPanic, plan, List.replicate, *]
  | some kopsJSON =>
  cases ha : assertMap (index kopsJSON "output") with
  | none =>
    refine ⟨6, Outcome.panicked, 3, ?_⟩
    simp [beforeValidation, exportAdminKubeconfig, bind_run, pure_run, firstState, setIsNewCluster,
      getIsNewCluster, shellHandled, shell, call, emit, orPanic, goPanic, plan, List.replicate, *]
  | some output =>
  by_cases h6 : w.succeeds 6 = true
  swap
  · refine ⟨7, Outcome.panicked, 3, ?_⟩
    simp [beforeValidation, exportAdminKubeconfig, bind_run, pure_run, firstState, setIsNewCluster,
      getIsNewCluster, shellHandled, shell, call, emit, orPanic, goPanic, plan, List.replicate, *]
  cases hp : patchKopsJSON kopsJSON w.terraformOutputJSON with
  | none =>
    refine ⟨7, Outcome.panicked, 3, ?_⟩
    simp [beforeValidation, exportAdminKubeconfig, bind_run, pure_run, firstState, setIsNewCluster,
      getIsNewCluster, shellHandled, shell, call, emit, orPanic, goPanic, plan, List.replicate, *]
  | some patched =>
  by_cases h7 : w.succeeds 7 = true
  swap
  · refine ⟨8, Outcome.panicked, 3, ?_⟩
    simp [beforeValidation, exportAdminKubeconfig, bind_run, pure_run, firstState, setIsNewCluster,
      getIsNewCluster, shellHandled, shell, call, emit, orPanic, goPanic, plan, List.replicate, *]
  by_cases h8 : w.succeeds 8 = true
  swap
  · refine ⟨9, Outcome.panicked, 3, ?_⟩
    simp [beforeValidation, exportAdminKubeconfig, bind_run, pure_run, firstState, setIsNewCluster,
      getIsNewCluster, shellHandled, shell, call, emit, orPanic, goPanic, plan, List.replicate, *]
  by_cases h9 : w.succeeds 9 = true
  swap
  · refine ⟨10, Outcome.panicked, 3, ?_⟩
    simp [beforeValidation, exportAdminKubeconfig, bind_run, pure_run, firstState, setIsNewCluster,
      getIsNewCluster, shellHandled, shell, call, emit, orPanic, goPanic, plan, List.replicate, *]
  by_cases h10 : w.succeeds 10 = true
  swap
  · refine ⟨11, Outcome.panicked, 3, ?_⟩
    simp [beforeValidation, exportAdminKubeconfig, bind_run, pure_run, firstState, setIsNewCluster,
      getIsNewCluster, shellHandled, shell, call, emit, orPanic, goPanic, plan, List.replicate, *]
  by_cases h11 : w.succeeds 11 = true
  swap
  · refine ⟨12, Outcome.panicked, 4, ?_⟩
    simp [beforeValidation, exportAdminKubeconfig, bind_run, pure_run, firstState, setIsNewCluster,
      getIsNewCluster, shellHandled, shell, call, emit, orPanic, goPanic, plan, List.replicate, *]
  refine ⟨12, Outcome.done (), 4, ?_⟩
  simp [beforeValidation, exportAdminKubeconfig, bind_run, pure_run, firstState, setIsNewCluster,
      getIsNewCluster, shellHandled, shell, call, emit, orPanic, goPanic, plan, List.replicate, *]

/-- The validation loop only adds validation checks and sleeps to the trace,
starts with a validation check when it has fuel, and neither writes nor reads
`isNewCluster`. -/
theorem validationLoop_trace (c : Config) (w : World) :
    ∀ (fuel : Nat) (s : RunState), ∃ o rest,
      validationLoop c w fuel s = (o, { s with trace := s.trace ++ rest }) ∧
      (∀ e ∈ rest, e = Event.shell "kops" (validateArgs c) ∨ ∃ n, e = Event.sleep n) ∧
      (rest = [] ∨ ∃ rest', rest = Event.shell "kops" (validateArgs c) :: rest') := by
  intro fuel
  induction fuel with
  | zero =>
    intro s
    exact ⟨Outcome.outOfFuel, [], by simp [validationLoop], by simp, Or.inl rfl⟩
  | succ fuel ih =>
    intro s
    simp only [validationLoop]
    cases hv : validationIteration (w.validateOutput s.trace.length) with
    | none =>
      exact ⟨Outcome.panicked, [Event.shell "kops" (validateArgs c)], rfl, by simp,
        Or.inr ⟨[], rfl⟩⟩
    | some step =>
      cases step with
      | exit =>
        exact ⟨Outcome.done (), [Event.shell "kops" (validateArgs c)], rfl, by simp,
          Or.inr ⟨[], rfl⟩⟩
      | retry seconds =>
        obtain ⟨o, rest, h, hall, _⟩ := ih
          { s with trace := s.trace ++ [Event.shell "kops" (validateArgs c)] ++
            [Event.sleep seconds] }
        refine ⟨o, Event.shell "kops" (validateArgs c) :: Event.sleep seconds :: rest, ?_, ?_,
          Or.inr ⟨_, rfl⟩⟩
        · simp only [h]
          simp
        · intro e he
          simp only [List.mem_cons] at he
          rcases he with rfl | rfl | he
          · exact Or.inl rfl
          · exact Or.inr ⟨seconds, rfl⟩
          · exact hall e he

/-- The writes of `isNewCluster` in a run whose existence probe gives the
value `isNew`: the declaration, and one assignment of true after the probe
when it fails. -/
theorem writes_cases (isNew : Bool) :
    (if isNew = true then [(0, false), (1, true)] else [((0 : Nat), false)]) =
      (0, false) :: (if isNew = true then [((1 : Nat), true)] else []) := by
  cases isNew <;> rfl

/-- The trace of a run: a part of the plan that the existence probe selects,
and, when all of the plan was run, the events of the validation loop. The
variable `isNewCluster` is written at its declaration and, when the probe
fails, once more right after the probe; every read gives the same value. -/
theorem runTrace_shape (c : Config) (w : World) (fuel : Nat) :
    ∃ n rest k, runTrace c w fuel = (plan c (!w.succeeds 0)).take n ++ rest ∧
      (clusterRun c w fuel).2.isNewCluster = (!w.succeeds 0) ∧
      (clusterRun c w fuel).2.writes =
        (0, false) :: (if (!w.succeeds 0) = true then [(1, true)] else []) ∧
      (clusterRun c w fuel).2.reads = List.replicate k (!w.succeeds 0) ∧
      2 ≤ n ∧
      (rest = [] ∨
        (n = (plan c (!w.succeeds 0)).length ∧ k = 4 ∧
          ∃ rest', rest = Event.shell "kops" (validateArgs c) :: rest')) ∧
      (∀ e ∈ rest, e = Event.shell "kops" (validateArgs c) ∨ ∃ k, e = Event.sleep k) := by
  have key : ∀ (isNew : Bool) (len : Nat), (plan c isNew).length = len →
      (∃ n o k, beforeValidation c w firstState =
          (o, ⟨(plan c isNew).take n, isNew,
            if isNew = true then [(0, false), (1, true)] else [(0, false)],
            List.replicate k isNew⟩) ∧
        (o = Outcome.done () → n = len ∧ k = 4) ∧ o ≠ Outcome.outOfFuel ∧ 2 ≤ n) →
      ∃ n rest k, runTrace c w fuel = (plan c isNew).take n ++ rest ∧
        (clusterRun c w fuel).2.isNewCluster = isNew ∧
        (clusterRun c w fuel).2.writes =
          (0, false) :: (if isNew = true then [(1, true)] else []) ∧
        (clusterRun c w fuel).2.reads = List.replicate k isNew ∧
        2 ≤ n ∧
        (rest = [] ∨ (n = (plan c isNew).length ∧ k = 4 ∧
          ∃ rest', rest = Event.shell "kops" (validateArgs c) :: rest')) ∧
        (∀ e ∈ rest, e = Event.shell "kops" (validateArgs c) ∨ ∃ k, e = Event.sleep k) := by
    intro isNew len hlen ⟨n, o, k, hb, hdone, hfuel, hn⟩
    cases o with
    | panicked =>
      refine ⟨n, [], k, ?_, ?_, ?_, ?_, hn, Or.inl rfl, by simp⟩
      · simp [runTrace, clusterRun, bind_run, hb]
      · simp [clusterRun, bind_run, hb]
      · simp only [clusterRun, bind_run, hb]
        exact writes_cases isNew
      · simp [clusterRun, bind_run, hb]
    | outOfFuel => exact absurd rfl hfuel
    | done u =>
      obtain ⟨o', rest, hl, hall, hrest⟩ := validationLoop_trace c w fuel
        ⟨(plan c isNew).take n, isNew,
          if isNew = true then [(0, false), (1, true)] else [(0, false)],
          List.replicate k isNew⟩
      refine ⟨n, rest, k, ?_, ?_, ?_, ?_, hn, ?_, hall⟩
      · simp [runTrace, clusterRun, bind_run, hb, hl]
      · simp [clusterRun, bind_run, hb, hl]
      · simp only [clusterRun, bind_run, hb, hl]
        exact writes_cases isNew
      · simp [clusterRun, bind_run, hb, hl]
      · rcases hrest with h | h
        · exact Or.inl h
        · exact Or.inr ⟨by rw [hlen]; exact (hdone rfl).1, (hdone rfl).2, h⟩
  cases h0 : w.succeeds 0 with
  | false => exact key true 13 (by simp [plan]) (beforeValidation_new c w h0)
  | true => exact key false 12 (by simp [plan]) (beforeValidation_existing c w h0)

/-- The run of `exampleConfig` in `existingWorld` with fuel for one validation
check: all of the plan of an existing cluster, then the check. -/
theorem clusterRun_existingWorld :
    clusterRun exampleConfig existingWorld 1 =
      (Outcome.done (),
       ⟨plan exampleConfig false ++ [Event.shell "kops" (validateArgs exampleConfig)],
        false, [(0, false)], [false, false, false, false]⟩) := by
  have hp : patchKopsJSON exampleKopsJSON exampleOutput = some examplePatched := rfl
  have ha : assertMap (index exampleKopsJSON "output") =
      some [("cluster_name", JSON.obj [("value", JSON.str "c.example.com")]),
            ("region", JSON.obj [("value", JSON.str "us-east-1")])] := rfl
  have hv : validationIteration (some (JSON.obj [])) = some PollStep.exit := rfl
  simp [clusterRun, beforeValidation, exportAdminKubeconfig, bind_run, pure_run, firstState,
    setIsNewCluster, getIsNewCluster, shellHandled, shell, call, emit, orPanic, goPanic, plan,
    validationLoop, existingWorld, hp, ha, hv]

/-- The run of `exampleConfig` in `newWorld` with fuel for one validation
check: all of the plan of a new cluster, then the check. -/
theorem clusterRun_newWorld :
    clusterRun exampleConfig newWorld 1 =
      (Outcome.done (),
       ⟨plan exampleConfig true ++ [Event.shell "kops" (validateArgs exampleConfig)],
        true, [(0, false), (1, true)], [true, true, true, true]⟩) := by
  have hp : patchKopsJSON exampleKopsJSON exampleOutput = some examplePatched := rfl
  have ha : assertMap (index exampleKopsJSON "output") =
      some [("cluster_name", JSON.obj [("value", JSON.str "c.example.com")]),
            ("region", JSON.obj [("value", JSON.str "us-east-1")])] := rfl
  have hv : validationIteration (some (JSON.obj [])) = some PollStep.exit := rfl
  simp [clusterRun, beforeValidation, exportAdminKubeconfig, bind_run, pure_run, firstState,
    setIsNewCluster, getIsNewCluster, shellHandled, shell, call, emit, orPanic, goPanic, plan,
    validationLoop, newWorld, hp, ha, hv]

theorem runTrace_existingWorld :
    runTrace exampleConfig existingWorld 1 =
      plan exampleConfig false ++ [Event.shell "kops" (validateArgs exampleConfig)] := by
  rw [runTrace, clusterRun_existingWorld]

theorem runTrace_newWorld :
    runTrace exampleConfig newWorld 1 =
      plan exampleConfig true ++ [Event.shell "kops" (validateArgs exampleConfig)] := by
  rw [runTrace, clusterRun_newWorld]



/-! ## C5: the admin export and the spec replace -/

theorem occursBefore_of_not_first (p q : Event → Bool) (l : List Event)
    (h : ∀ e ∈ l, p e = false) : occursBefore p q l = false := by
  induction l with
  | nil => rfl
  | cons a l ih =>
    simp only [occursBefore, h a (List.mem_cons_self a l), Bool.false_and, Bool.false_or]
    exact ih (fun e he => h e (List.mem_cons_of_mem a he))

/-- Events that are neither `p` nor `q`, added at the end, change nothing. -/
theorem occursBefore_append_inert (p q : Event → Bool) (l rest : List Event)
    (h : ∀ e ∈ rest, p e = false ∧ q e = false) :
    occursBefore p q (l ++ rest) = occursBefore p q l := by
  have hq : rest.any q = false := by
    simp only [List.any_eq_false]
    intro e he
    simp [(h e he).2]
  induction l with
  | nil =>
    simp only [List.nil_append, occursBefore]
    exact occursBefore_of_not_first p q rest (fun e he => (h e he).1)
  | cons a l ih =>
    have ih' : occursBefore p q (l.append rest) = occursBefore p q l := ih
    have ha : (l.append rest).any q = l.any q := by
      show (l ++ rest).any q = l.any q
      rw [List.any_append, hq, Bool.or_false]
    simp only [List.cons_append, occursBefore, ha, ih']

theorem any_take_false (q : Event → Bool) (l : List Event) (n : Nat)
    (h : l.any q = false) : (l.take n).any q = false := by
  simp only [List.any_eq_false] at h ⊢
  intro e he
  exact h e (List.mem_of_mem_take he)

/-- What does not happen in a trace does not happen in its beginning. -/
theorem occursBefore_take_false (p q : Event → Bool) (l : List Event) :
    ∀ n, occursBefore p q l = false → occursBefore p q (l.take n) = false := by
  induction l with
  | nil => intro n _; simp [occursBefore]
  | cons a l ih =>
    intro n h
    cases n with
    | zero => simp [occursBefore]
    | succ n =>
      simp only [occursBefore, Bool.or_eq_false_iff, Bool.and_eq_false_iff] at h
      simp only [List.take_succ_cons, occursBefore, Bool.or_eq_false_iff,
        Bool.and_eq_false_iff]
      refine ⟨?_, ih n h.2⟩
      rcases h.1 with h1 | h1
      · exact Or.inl h1
      · exact Or.inr (any_take_false q l n h1)

theorem head_replaceScript : replaceScript.data.head? = some '\n' := by
  decide

theorem finalApplyScript_ne_replaceScript (c : Config) : finalApplyScript c ≠ replaceScript := by
  intro h
  have h1 : (finalApplyScript c).data.head? = some 't' := by
    simp [finalApplyScript]
  rw [h, head_replaceScript] at h1
  revert h1
  decide

theorem rollingUpdateScript_ne_replaceScript (c : Config) :
    rollingUpdateScript c ≠ replaceScript := by
  intro h
  have h1 : (rollingUpdateScript c).data.head? = some 'k' := by
    simp [rollingUpdateScript]
  rw [h, head_replaceScript] at h1
  revert h1
  decide

theorem isFinalApply_finalApply (c : Config) :
    isFinalApply (Event.shell "bash" ["-c", finalApplyScript c]) = true := by
  simp [isFinalApply, HasPrefix, finalApplyScript]

theorem isFinalApply_probe :
    isFinalApply (Event.shell "bash" ["-c", "kops get cluster $CLUSTER &> /dev/null"]) = false := by
  decide

theorem isFinalApply_replace :
    isFinalApply (Event.shell "bash" ["-c", replaceScript]) = false := by
  decide

/-- No admin export comes before a spec replace in a plan. -/
theorem plan_no_export_before_replace (c : Config) (isNew : Bool) :
    occursBefore isAdminExport isSpecReplace (plan c isNew) = false := by
  cases isNew <;>
    simp [plan, occursBefore, isAdminExport, isSpecReplace, updateArgs,
      finalApplyScript_ne_replaceScript, rollingUpdateScript_ne_replaceScript]

/-- C5, as the code has it. In every run, no admin export is issued before the
forced spec replace. In a run in which the existence probe reports no error
and that gets as far as `kops update cluster`, the admin export is issued
after the forced spec replace and before `kops update cluster`. -/
theorem admin_export_follows_replace (c : Config) (w : World) (fuel : Nat) :
    occursBefore isAdminExport isSpecReplace (runTrace c w fuel) = false ∧
    (w.succeeds 0 = true → (runTrace c w fuel).any isUpdateCluster = true →
      occursBefore isSpecReplace isAdminExport (runTrace c w fuel) = true ∧
      occursBefore isAdminExport isUpdateCluster (runTrace c w fuel) = true) := by
  obtain ⟨n, rest, _, ht, _, _, _, hn, _, hall⟩ := runTrace_shape c w fuel
  have hinert : ∀ (p : Event → Bool),
      (∀ k, p (Event.sleep k) = false) → p (Event.shell "kops" (validateArgs c)) = false →
      ∀ e ∈ rest, p e = false := by
    intro p hs hv e he
    rcases hall e he with rfl | ⟨k, rfl⟩
    · exact hv
    · exact hs k
  have hexport := hinert isAdminExport (fun _ => rfl) (by simp [isAdminExport, validateArgs])
  have hreplace := hinert isSpecReplace (fun _ => rfl) (by simp [isSpecReplace])
  have hupdate := hinert isUpdateCluster (fun _ => rfl) (by simp [isUpdateCluster, validateArgs])
  refine ⟨?_, ?_⟩
  · rw [ht, occursBefore_append_inert _ _ _ _ (fun e he => ⟨hexport e he, hreplace e he⟩)]
    exact occursBefore_take_false _ _ _ n (plan_no_export_before_replace c _)
  · intro h0 hu
    rw [ht] at hu ⊢
    rw [occursBefore_append_inert _ _ _ _ (fun e he => ⟨hreplace e he, hexport e he⟩),
      occursBefore_append_inert _ _ _ _ (fun e he => ⟨hexport e he, hupdate e he⟩)]
    have hrest : rest.any isUpdateCluster = false := by
      simp only [List.any_eq_false]
      intro e he
      simp [hupdate e he]
    simp only [List.any_append, hrest, Bool.or_false, h0, Bool.not_true] at hu
    simp only [h0, Bool.not_true]
    rcases n with _ | _ | _ | _ | _ | n
    · omega
    · omega
    · simp [plan, isUpdateCluster] at hu
    · simp [plan, isUpdateCluster] at hu
    · simp [plan, isUpdateCluster] at hu
    · simp [plan, occursBefore, isAdminExport, isSpecReplace, isUpdateCluster, updateArgs]

set_option maxRecDepth 100000 in
/-- In the run of `exampleConfig` in `existingWorld` the existence probe
reports no error, the spec replace is issued, and it is not the admin export
that comes first: the admin export comes after the spec replace. -/
theorem admin_export_not_before_replace :
    existingWorld.succeeds 0 = true ∧
    (runTrace exampleConfig existingWorld 1).any isSpecReplace = true ∧
    (runTrace exampleConfig existingWorld 1).any isAdminExport = true ∧
    occursBefore isAdminExport isSpecReplace (runTrace exampleConfig existingWorld 1) = false ∧
    occursBefore isSpecReplace isAdminExport (runTrace exampleConfig existingWorld 1) = true := by
  rw [runTrace_existingWorld]
  decide

set_option maxRecDepth 100000 in
/-- The ordering in the run of `exampleConfig` in `existingWorld`. -/
theorem admin_export_follows_replace_witness :
    occursBefore isSpecReplace isAdminExport (runTrace exampleConfig existingWorld 1) = true ∧
    occursBefore isAdminExport isUpdateCluster (runTrace exampleConfig existingWorld 1) = true :=
  (admin_export_follows_replace exampleConfig existingWorld 1).2 (by decide)
    (by rw [runTrace_existingWorld]; decide)

/-! ## C6: the branches that the existence flag selects -/

theorem plan_no_validate (c : Config) (isNew : Bool) :
    (plan c isNew).any isValidate = false := by
  cases isNew <;> simp [plan, isValidate, updateArgs]

theorem isFinalApply_kops (args : List String) :
    isFinalApply (Event.shell "kops" args) = false := by
  simp [isFinalApply]

theorem isFinalApply_rollingUpdate (c : Config) :
    isFinalApply (Event.shell "bash" ["-c", rollingUpdateScript c]) = false := by
  have h1 : (rollingUpdateScript c).data.head? = some 'k' := by
    simp [rollingUpdateScript]
  simp only [isFinalApply, HasPrefix, List.drop, List.headD]
  cases hd : (rollingUpdateScript c).data with
  | nil => rw [hd] at h1; simp at h1
  | cons x xs =>
    rw [hd] at h1
    simp at h1
    subst h1
    simp [List.isPrefixOf]

/-- Events that are not `p`, added at the end, are not kept by a filter on `p`. -/
theorem filter_append_inert (p : Event → Bool) (l rest : List Event)
    (h : ∀ e ∈ rest, p e = false) : (l ++ rest).filter p = l.filter p := by
  rw [List.filter_append]
  have : rest.filter p = [] := by
    rw [List.filter_eq_nil_iff]
    intro e he
    simp [h e he]
  rw [this, List.append_nil]

theorem any_append_inert (p : Event → Bool) (l rest : List Event)
    (h : ∀ e ∈ rest, p e = false) : (l ++ rest).any p = l.any p := by
  rw [List.any_append]
  have : rest.any p = false := by
    simp only [List.any_eq_false]
    intro e he
    simp [h e he]
  rw [this, Bool.or_false]

/-- The events between the last `terraform apply` and the first validation
check, in a trace that runs all of a plan and then a validation check. -/
theorem between_plan (c : Config) (isNew : Bool) (rest : List Event) :
    betweenApplyAndValidation (plan c isNew ++ Event.shell "kops" (validateArgs c) :: rest) =
      [Event.call "getTerraformOutputJSONBytes", Event.call "writeAssets",
       if isNew = true then Event.sleep 180
       else Event.shell "bash" ["-c", rollingUpdateScript c]] := by
  have hv : isValidate (Event.shell "kops" (validateArgs c)) = true := by
    simp [isValidate, validateArgs]
  cases isNew <;>
    simp [plan, betweenApplyAndValidation, List.dropWhile, List.takeWhile,
      isFinalApply_finalApply, isFinalApply_probe, isFinalApply_replace, isFinalApply_kops, hv] <;>
    simp [isFinalApply, isValidate]

/-- In a part of a plan that reaches the last `terraform apply`, there is one
`kops update cluster`, with `--create-kube-config=false` exactly for an
existing cluster, and one admin export, before the update exactly for an
existing cluster and after it exactly for a new one. -/
theorem plan_take_paths (c : Config) (isNew : Bool) (n : Nat)
    (h : ((plan c isNew).take n).any isFinalApply = true) :
    ((plan c isNew).take n).filter isUpdateCluster =
      [Event.shell "kops" ["update", "cluster", c.name,
        if isNew = true then "" else "--create-kube-config=false",
        "--target", "terraform", "--out", ".", "--yes",
        if c.debug = true then "-v7" else "", "--allow-kops-downgrade"]] ∧
    ((plan c isNew).take n).filter isAdminExport =
      [Event.shell "kops" ["export", "kubeconfig", c.name, "--admin", "--kubeconfig",
        adminKubeconfigPath c]] ∧
    occursBefore isAdminExport isUpdateCluster ((plan c isNew).take n) = (!isNew) ∧
    occursBefore isUpdateCluster isAdminExport ((plan c isNew).take n) = isNew := by
  cases isNew <;>
    rcases n with _ | _ | _ | _ | _ | _ | _ | _ | _ | _ | _ | _ | _ | _ | n <;>
    simp [plan, isFinalApply_probe, isFinalApply_replace, isFinalApply_kops,
      isFinalApply_rollingUpdate] at h <;>
    simp [plan, occursBefore, isUpdateCluster, isAdminExport, updateArgs] <;>
    simp [isFinalApply] at h

/-- C6. In every run, the variable `isNewCluster` is written at its
declaration, before the first event, and, exactly when the existence probe
reports an error, once more right after the probe, to true; it is written
nowhere else, every read of it gives the value "the probe reported an error",
and so does its last value. A `kops update cluster` of the run has
`--create-kube-config=false` after the name exactly when the probe reported no
error; a run that reaches the last `terraform apply -refresh=false` has issued
exactly one such update and exactly one admin export, the export before the
update exactly when the probe reported no error and after it exactly when it
reported one. In a run that reaches the first validation check the variable
was read four times, and the events between the last `terraform apply
-refresh=false` and that check are the two calls that save the terraform
output and then, when the probe reported an error, one sleep of 180 seconds
and, when it reported none, one `kops rolling-update cluster … --yes`, with
`--cloudonly` exactly in fast mode. -/
theorem existence_flag_selects_branch (c : Config) (w : World) (fuel : Nat) :
    (clusterRun c w fuel).2.isNewCluster = (!w.succeeds 0) ∧
    (clusterRun c w fuel).2.writes =
      (0, false) :: (if w.succeeds 0 = true then [] else [(1, true)]) ∧
    (∀ b ∈ (clusterRun c w fuel).2.reads, b = (!w.succeeds 0)) ∧
    (∀ e ∈ runTrace c w fuel, isUpdateCluster e = true →
      e = Event.shell "kops" ["update", "cluster", c.name,
        if w.succeeds 0 = true then "--create-kube-config=false" else "",
        "--target", "terraform", "--out", ".", "--yes",
        if c.debug = true then "-v7" else "", "--allow-kops-downgrade"]) ∧
    ((runTrace c w fuel).any isFinalApply = true →
      (runTrace c w fuel).filter isUpdateCluster =
        [Event.shell "kops" ["update", "cluster", c.name,
          if w.succeeds 0 = true then "--create-kube-config=false" else "",
          "--target", "terraform", "--out", ".", "--yes",
          if c.debug = true then "-v7" else "", "--allow-kops-downgrade"]] ∧
      (runTrace c w fuel).filter isAdminExport =
        [Event.shell "kops" ["export", "kubeconfig", c.name, "--admin", "--kubeconfig",
          adminKubeconfigPath c]] ∧
      occursBefore isAdminExport isUpdateCluster (runTrace c w fuel) = w.succeeds 0 ∧
      occursBefore isUpdateCluster isAdminExport (runTrace c w fuel) = (!w.succeeds 0)) ∧
    ((runTrace c w fuel).any isValidate = true →
      (clusterRun c w fuel).2.reads = List.replicate 4 (!w.succeeds 0) ∧
      betweenApplyAndValidation (runTrace c w fuel) =
        [Event.call "getTerraformOutputJSONBytes", Event.call "writeAssets",
         if w.succeeds 0 = true then
           Event.shell "bash" ["-c", "kops rolling-update cluster " ++ c.name ++ " " ++
             (if c.fast = true then "--cloudonly" else "") ++ " " ++
             (if c.debug = true then "-v7" else "") ++ " --yes"]
         else Event.sleep 180]) := by
  obtain ⟨n, rest, k, ht, hflag, hwrites, hreads, _, hrest, hall⟩ := runTrace_shape c w fuel
  have hinert : ∀ (p : Event → Bool),
      (∀ j, p (Event.sleep j) = false) → p (Event.shell "kops" (validateArgs c)) = false →
      ∀ e ∈ rest, p e = false := by
    intro p hs hv e he
    rcases hall e he with rfl | ⟨j, rfl⟩
    · exact hv
    · exact hs j
  have hexport := hinert isAdminExport (fun _ => rfl) (by simp [isAdminExport, validateArgs])
  have hupdate := hinert isUpdateCluster (fun _ => rfl) (by simp [isUpdateCluster, validateArgs])
  have happly := hinert isFinalApply (fun _ => rfl) (isFinalApply_kops _)
  refine ⟨hflag, ?_, ?_, ?_, ?_, ?_⟩
  · rw [hwrites]
    cases w.succeeds 0 <;> rfl
  · intro b hb
    rw [hreads] at hb
    exact List.eq_of_mem_replicate hb
  · intro e he hu
    rw [ht] at he
    rcases List.mem_append.1 he with he | he
    · have hp := List.mem_of_mem_take he
      cases h0 : w.succeeds 0 <;> simp only [h0, Bool.not_true, Bool.not_false] at hp <;>
        simp [plan] at hp <;>
        rcases hp with rfl | rfl | rfl | rfl | rfl | rfl | rfl | rfl | rfl | rfl | rfl | hp <;>
        first
          | (simp [isUpdateCluster] at hu; done)
          | (simp [updateArgs]; done)
          | (rcases hp with rfl | rfl <;> simp [isUpdateCluster] at hu)
    · rw [hupdate e he] at hu
      exact absurd hu (by decide)
  · intro ha
    rw [ht] at ha ⊢
    rw [any_append_inert _ _ _ happly] at ha
    obtain ⟨p1, p2, p3, p4⟩ := plan_take_paths c (!w.succeeds 0) n ha
    rw [filter_append_inert _ _ _ hupdate, filter_append_inert _ _ _ hexport,
      occursBefore_append_inert _ _ _ _ (fun e he => ⟨hexport e he, hupdate e he⟩),
      occursBefore_append_inert _ _ _ _ (fun e he => ⟨hupdate e he, hexport e he⟩),
      p1, p2, p3, p4]
    cases w.succeeds 0 <;> simp
  · intro hv
    rcases hrest with hnil | ⟨hn, hk, rest', hr⟩
    · rw [ht, hnil, List.append_nil] at hv
      have := any_take_false isValidate _ n (plan_no_validate c (!w.succeeds 0))
      rw [this] at hv
      exact absurd hv (by decide)
    · refine ⟨by rw [hreads, hk], ?_⟩
      rw [ht, hn, List.take_length, hr, between_plan]
      cases h0 : w.succeeds 0 <;> simp [rollingUpdateScript]

set_option maxRecDepth 100000 in
/-- A run of an existing cluster and a run of a new cluster that reach the
first validation check. -/
theorem existence_flag_selects_branch_witness :
    (betweenApplyAndValidation (runTrace exampleConfig existingWorld 1) =
      [Event.call "getTerraformOutputJSONBytes", Event.call "writeAssets",
       Event.shell "bash" ["-c", "kops rolling-update cluster c.example.com --cloudonly  --yes"]]) ∧
    (betweenApplyAndValidation (runTrace exampleConfig newWorld 1) =
      [Event.call "getTerraformOutputJSONBytes", Event.call "writeAssets", Event.sleep 180]) ∧
    (clusterRun exampleConfig existingWorld 1).2.writes = [(0, false)] ∧
    (clusterRun exampleConfig newWorld 1).2.writes = [(0, false), (1, true)] ∧
    (occursBefore isAdminExport isUpdateCluster (runTrace exampleConfig existingWorld 1) = true) ∧
    (occursBefore isUpdateCluster isAdminExport (runTrace exampleConfig newWorld 1) = true) :=
  ⟨((existence_flag_selects_branch exampleConfig existingWorld 1).2.2.2.2.2
      (by rw [runTrace_existingWorld]; decide)).2.trans (by decide),
   ((existence_flag_selects_branch exampleConfig newWorld 1).2.2.2.2.2
      (by rw [runTrace_newWorld]; decide)).2.trans (by decide),
   (existence_flag_selects_branch exampleConfig existingWorld 1).2.1.trans (by decide),
   (existence_flag_selects_branch exampleConfig newWorld 1).2.1.trans (by decide),
   ((existence_flag_selects_branch exampleConfig existingWorld 1).2.2.2.2.1
      (by rw [runTrace_existingWorld]; decide)).2.2.1.trans (by decide),
   ((existence_flag_selects_branch exampleConfig newWorld 1).2.2.2.2.1
      (by rw [runTrace_newWorld]; decide)).2.2.2.trans (by decide)⟩

end Klarista
